import Mathlib

/-!
Verification development for the nswcaselaw scraping library.

The Python sources (`constants.py`, `search.py`, `decision.py`) are embedded
shallowly: HTML documents are modelled as a tree type `Node`, the BeautifulSoup
operations the code relies on are implemented over that tree, Python `dict`s
become insertion-ordered association lists, and Python exceptions become an
`Except PyErr` result.  Python's `None` is modelled explicitly where the code
can store or return it.
-/

set_option maxRecDepth 10000

namespace NswCaseLaw

/-- Python exceptions that the embedded code can raise. -/
inductive PyErr where
  | valueError (msg : String)
  | keyError
  | typeError
  | attributeError
  | indexError
  | caseLaw (msg : String)
  | unboundLocal (nm : String)
deriving Repr, DecidableEq

/-- Python whitespace predicate (`str.strip` default, bs4 stripping). -/
def isPySpace (c : Char) : Bool := c.isWhitespace

/-- Python `s.strip()`: whitespace removed from both ends. -/
def pyStrip (s : String) : String :=
  String.mk (((s.data.dropWhile isPySpace).reverse.dropWhile isPySpace).reverse)

/-- Does the second list occur at the head of the first? -/
def listStartsWith : List Char → List Char → Bool
  | _, [] => true
  | [], _ :: _ => false
  | c :: cs, d :: ds => c = d && listStartsWith cs ds

/-- Does `sub` occur anywhere (contiguously) in the list? -/
def listContainsSub (sub : List Char) : List Char → Bool
  | [] => sub.isEmpty
  | c :: cs => listStartsWith (c :: cs) sub || listContainsSub sub cs

/-- Split a string on any of the given separator characters (Python
`str.split(c)` for a one-character separator, and `re.split` with a
character class). -/
def splitOnCharsAux (seps : List Char) : List Char → String → List String
  | [], cur => [cur]
  | c :: cs, cur =>
      if seps.contains c then cur :: splitOnCharsAux seps cs ""
      else splitOnCharsAux seps cs (cur.push c)

/-- Split a string on any of the given separator characters. -/
def splitOnChars (seps : List Char) (s : String) : List String :=
  splitOnCharsAux seps s.data ""

/-- Python `s.replace("\n", " ")`. -/
def replaceNewlineSpace (s : String) : String :=
  String.mk (s.data.map (fun c => if c = '\n' then ' ' else c))

/-- HTML tree: a text node or a tag with a name, attributes and children.
This stands in for the BeautifulSoup collaborator: a tag's attributes are an
association list and its children are in document order. -/
inductive Node where
  | text (s : String)
  | tag (nm : String) (attrs : List (String × String)) (children : List Node)

namespace Node

/-- Tag name of a node: `none` for text nodes (bs4 `.name` is `None` there). -/
def nameOf : Node → Option String
  | .text _ => none
  | .tag nm _ _ => some nm

/-- Attribute list of a node (empty for text nodes). -/
def attrsOf : Node → List (String × String)
  | .text _ => []
  | .tag _ a _ => a

/-- Children of a node (empty for text nodes). -/
def childrenOf : Node → List Node
  | .text _ => []
  | .tag _ _ cs => cs

mutual

/-- All raw text strings of the descendants of a node, in document order
(bs4 `.strings` over descendants; the node itself contributes if it is text). -/
def rawStrings : Node → List String
  | .text s => [s]
  | .tag _ _ cs => rawStringsList cs

/-- Raw text strings of a list of nodes, in order. -/
def rawStringsList : List Node → List String
  | [] => []
  | c :: cs => rawStrings c ++ rawStringsList cs

end

/-- bs4 `stripped_strings`: each descendant string trimmed, empties dropped. -/
def strippedStrings (n : Node) : List String :=
  ((rawStrings n).map pyStrip).filter (fun s => !(s == ""))

/-- bs4 `.text` / `get_text()`: concatenation of all descendant strings. -/
def textAll (n : Node) : String :=
  String.join (rawStrings n)

mutual

/-- bs4 `find_all(name)`: all strict-descendant tags with the given name, in
document (pre-order) order. -/
def findAll (nm : String) : Node → List Node
  | .text _ => []
  | .tag _ _ cs => findAllList nm cs

/-- Helper for `findAll` over a list of sibling nodes. -/
def findAllList (nm : String) : List Node → List Node
  | [] => []
  | c :: cs =>
      (if c.nameOf = some nm then [c] else []) ++ findAll nm c ++ findAllList nm cs

end

/-- bs4 `find(name)`: first descendant tag with the given name, if any. -/
def find (nm : String) (n : Node) : Option Node :=
  (findAll nm n).head?

mutual

/-- bs4 `find_all(name, {"class": cls})`: descendant tags with the given name
whose `class` attribute equals `cls`. -/
def findAllClass (nm cls : String) : Node → List Node
  | .text _ => []
  | .tag _ _ cs => findAllClassList nm cls cs

/-- Helper for `findAllClass` over a list of sibling nodes. -/
def findAllClassList (nm cls : String) : List Node → List Node
  | [] => []
  | c :: cs =>
      (if c.nameOf = some nm ∧ c.attrsOf.lookup "class" = some cls then [c] else [])
        ++ findAllClass nm cls c ++ findAllClassList nm cls cs

end

mutual

/-- All descendant tags with the given name, each paired with its following
siblings (the tail of its parent's child list after it), in document order.
Used to model bs4 `find(...)` followed by `.next_siblings` and
`find_next_sibling`. -/
def findAllWithSiblings (nm : String) : Node → List (Node × List Node)
  | .text _ => []
  | .tag _ _ cs => findAllWithSiblingsList nm cs

/-- Helper for `findAllWithSiblings` over a list of sibling nodes. -/
def findAllWithSiblingsList (nm : String) : List Node → List (Node × List Node)
  | [] => []
  | c :: cs =>
      (if c.nameOf = some nm then [(c, cs)] else [])
        ++ findAllWithSiblings nm c ++ findAllWithSiblingsList nm cs

end

/-- bs4 `.string`: the text of a node that has exactly one text child. -/
def stringOf : Node → Option String
  | .tag _ _ [.text s] => some s
  | _ => none

/-- bs4 `elt[key]` attribute access: raises `KeyError` when absent. -/
def getAttr (n : Node) (key : String) : Except PyErr String :=
  match n.attrsOf.lookup key with
  | some v => .ok v
  | none => .error .keyError

/-- bs4 `elt.get(key, dflt)` attribute access with default. -/
def getAttrD (n : Node) (key dflt : String) : String :=
  (n.attrsOf.lookup key).getD dflt

end Node

/-- Python substring containment `sub in s` (for non-empty `sub`;
an empty `sub` is contained in everything). -/
def strContains (s sub : String) : Bool :=
  listContainsSub sub.data s.data

/-! ## constants.py -/

/-- The `"courts"` list of the embedded `COURTS` table in `constants.py`. -/
def COURTS_courts : List (String × String) := [
  ("54a634063004de94513d827a", "Children's Court"),
  ("54a634063004de94513d827b", "Compensation Court"),
  ("54a634063004de94513d8278", "Court of Appeal"),
  ("54a634063004de94513d8279", "Court of Criminal Appeal"),
  ("54a634063004de94513d827c", "District Court"),
  ("54a634063004de94513d827d", "Drug Court"),
  ("54a634063004de94513d828e", "Industrial Court"),
  ("54a634063004de94513d8285", "Industrial Relations Commission (Commissioners)"),
  ("54a634063004de94513d827e", "Industrial Relations Commission (Judges)"),
  ("54a634063004de94513d827f", "Land and Environment Court (Commissioners)"),
  ("54a634063004de94513d8286", "Land and Environment Court (Judges)"),
  ("54a634063004de94513d8280", "Local Court"),
  ("54a634063004de94513d8281", "Supreme Court")]

/-- The `"tribunals"` list of the embedded `COURTS` table in `constants.py`. -/
def COURTS_tribunals : List (String × String) := [
  ("54a634063004de94513d8282", "Administrative Decisions Tribunal (Appeal Panel)"),
  ("54a634063004de94513d8287", "Administrative Decisions Tribunal (Divisions)"),
  ("54a634063004de94513d8289",
    "Civil and Administrative Tribunal (Administrative and Equal Opportunity Division)"),
  ("54a634063004de94513d828d", "Civil and Administrative Tribunal (Appeal Panel)"),
  ("54a634063004de94513d828b",
    "Civil and Administrative Tribunal (Consumer and Commercial Division)"),
  ("173b71a8beab2951cc1fab8d", "Civil and Administrative Tribunal (Enforcement)"),
  ("54a634063004de94513d828c", "Civil and Administrative Tribunal (Guardianship Division)"),
  ("54a634063004de94513d828a", "Civil and Administrative Tribunal (Occupational Division)"),
  ("54a634063004de94513d8283", "Dust Diseases Tribunal"),
  ("1723173e41f6b6d63f2105d3", "Equal Opportunity Tribunal"),
  ("5e5c92e1e4b0c8604babc749", "Fair Trading Tribunal"),
  ("5e5c92c5e4b0c8604babc748", "Legal Services Tribunal"),
  ("54a634063004de94513d8284", "Medical Tribunal"),
  ("54a634063004de94513d8288", "Transport Appeal Boards")]

/-- The `COURTS` dict of `constants.py`: two keys, `"courts"` and
`"tribunals"`, each an ordered list of (identifier, display name) pairs. -/
def COURTS : List (String × List (String × String)) :=
  [("courts", COURTS_courts), ("tribunals", COURTS_tribunals)]

/-- Python `court_type in COURTS` membership test. -/
def courtTypeKnown (court_type : String) : Bool :=
  (COURTS.lookup court_type).isSome

/-- Python `COURTS[court_type]` (total: callers guard with membership). -/
def courtsOf (court_type : String) : List (String × String) :=
  (COURTS.lookup court_type).getD []

/-- `constants.index_to_court`: return the 1-based entry of the category's
list, raising `ValueError` on an unknown category or out-of-range index. -/
def index_to_court (court_type : String) (court_idx : Int) : Except PyErr (String × String) :=
  if ¬ courtTypeKnown court_type then
    .error (.valueError "Unknown court type")
  else if court_idx < 1 ∨ court_idx > (courtsOf court_type).length then
    .error (.valueError "Court index out of range")
  else
    .ok (((courtsOf court_type).get? (court_idx - 1).toNat).getD ("", ""))

/-! ## search.py: query building -/

/-- `search.TEXT_FIELDS`: the recognized text fields, in source order. -/
def TEXT_FIELDS : List String :=
  ["body", "title", "before", "catchwords", "party", "mnc", "startDate",
   "endDate", "fileNumber", "legislationCited", "casesCited"]

/-- `search.COURTS_FIELDS`. -/
def COURTS_FIELDS : List String := ["courts", "tribunals"]

/-- `search.PAGE_SIZE`. -/
def PAGE_SIZE : Nat := 20

/-- `search.SEARCH_PAUSE_SECONDS`. -/
def SEARCH_PAUSE_SECONDS : Nat := 10

/-- A keyword-argument value passed to `Search(...)`: a string (text fields)
or a list of integer ordinals (courts/tribunals fields). -/
inductive Kw where
  | str (s : String)
  | ints (l : List Int)
deriving Repr, DecidableEq

/-- One query parameter tuple as built by `Search.build_query`; the value is
`none` when the Python tuple holds `None`. -/
abbrev Param := String × Option Kw

/-- `Search.__init__`: `self._query[field] = kwargs.get(field)` for every
field in `TEXT_FIELDS + COURTS_FIELDS`; absent kwargs store Python `None`. -/
def searchInit (kwargs : List (String × Kw)) : List (String × Option Kw) :=
  (TEXT_FIELDS ++ COURTS_FIELDS).map (fun f => (f, kwargs.lookup f))

/-- Python `self._query.get(field, dflt)`: the stored value when the key is
present (even when that stored value is `None`), else the default. -/
def queryGet (q : List (String × Option Kw)) (k : String) (dflt : Option Kw) :
    Option Kw :=
  match q.lookup k with
  | some v => v
  | none => dflt

/-- Python `self._query[field]`: raises `KeyError` when the key is absent. -/
def queryIndex (q : List (String × Option Kw)) (k : String) :
    Except PyErr (Option Kw) :=
  match q.lookup k with
  | some v => .ok v
  | none => .error .keyError

/-- The `for court in COURTS[court_type]` loop body of `Search.courts_query`:
for each entry, the `(court_type, id)` value parameter when the id was
selected, then always the `("_" + court_type, "on")` flag parameter. -/
def courtsLoop (court_type : String) (ids : List String) :
    List (String × String) → List Param
  | [] => []
  | c :: rest =>
      (if ids.contains c.1 then [(court_type, some (Kw.str c.1))] else [])
        ++ [("_" ++ court_type, some (Kw.str "on"))]
        ++ courtsLoop court_type ids rest

/-- `Search.courts_query`: resolve the selected ordinals to court ids (any
out-of-range ordinal raises `ValueError` via `index_to_court`; `None` means
no selection), then walk the category's table emitting parameters. -/
def courts_query (court_type : String) (indices : Option Kw) :
    Except PyErr (List Param) := do
  let ids ← match indices with
    | none => Except.ok []
    | some (Kw.ints l) => l.mapM (fun idx => do
        let c ← index_to_court court_type idx
        Except.ok c.1)
    | some (Kw.str _) => Except.error PyErr.typeError
  Except.ok (courtsLoop court_type ids (courtsOf court_type))

/-- `Search.build_query`: the page parameter, then one parameter per text
field in `TEXT_FIELDS` order, then the courts and tribunals parameters. -/
def build_query (q : List (String × Option Kw)) : Except PyErr (List Param) := do
  let base := ("page", some (Kw.str ""))
      :: TEXT_FIELDS.map (fun f => (f, queryGet q f (some (Kw.str ""))))
  let extra ← COURTS_FIELDS.foldlM (fun acc f => do
      let idx ← queryIndex q f
      let ps ← courts_query f idx
      Except.ok (acc ++ ps)) []
  Except.ok (base ++ extra)

/-! ## search.py: results-page scraping -/

/-- A Python value held in a `Decision._values` slot: `None`, a string, or a
list of strings. -/
inductive DVal where
  | dnone
  | dstr (s : String)
  | dlist (l : List String)
deriving Repr, DecidableEq

/-- `decision.BASE_FIELDS`. -/
def BASE_FIELDS : List String :=
  ["title", "uri", "before", "decisionDate", "catchwords"]

/-- A `Decision` object: its `_values` dict (insertion-ordered). -/
structure DecisionRec where
  values : List (String × DVal)
deriving Repr, DecidableEq

/-- `Decision.__init__`: every `BASE_FIELDS` key is stored, from the kwargs
when given and as Python `None` otherwise. -/
def decisionInit (kwargs : List (String × DVal)) : DecisionRec :=
  ⟨BASE_FIELDS.map (fun f => (f, (kwargs.lookup f).getD DVal.dnone))⟩

/-- Python `self._values.get(field)`: `None` when absent. -/
def DecisionRec.get (d : DecisionRec) (field : String) : DVal :=
  (d.values.lookup field).getD DVal.dnone

/-- Consume an exact literal from the front of a character list. -/
def stripLit : List Char → List Char → Option (List Char)
  | [], s => some s
  | l :: ls, c :: cs => if c = l then stripLit ls cs else none
  | _ :: _, [] => none

/-- Split a leading run of decimal digits off a character list. -/
def takeDigits : List Char → List Char × List Char
  | [] => ([], [])
  | c :: cs =>
      if c.isDigit then
        let (d, r) := takeDigits cs
        (c :: d, r)
      else ([], c :: cs)

/-- Numeric value of a digit run. -/
def digitsToNat (ds : List Char) : Nat :=
  ds.foldl (fun acc c => 10 * acc + (c.toNat - 48)) 0

/-- The `search.RESULTS_RE` regex `Displaying \d+ - \d+ of (\d+)` applied with
`re.match` (anchored at the start, trailing text allowed): returns the
captured total on success. -/
def matchResultsRe (s : String) : Option Nat := do
  let r1 ← stripLit "Displaying ".toList s.toList
  let (d1, r2) := takeDigits r1
  if d1.isEmpty then none else
  let r3 ← stripLit " - ".toList r2
  let (d2, r4) := takeDigits r3
  if d2.isEmpty then none else
  let r5 ← stripLit " of ".toList r4
  let (d3, _) := takeDigits r5
  if d3.isEmpty then none else
  some (digitsToNat d3)

/-- Body of `Search.scrape_one_result` before the `except` clause: extract
title, uri, catchwords, before and date from one result row, raising the
same exceptions the Python code would. -/
def scrape_one_result_core (row : Node) : Except PyErr DecisionRec := do
  let (header, sibs) ← match (Node.findAllWithSiblings "h4" row).head? with
    | some x => Except.ok x
    | none => Except.error PyErr.attributeError
  let link ← match Node.find "a" header with
    | some l => Except.ok l
    | none => Except.error PyErr.typeError
  let uri ← link.getAttr "href"
  let title := String.join link.strippedStrings
  let divs := sibs.filter (fun d => d.nameOf = some "div")
  let catchwords := match divs.head? with
    | none => ""
    | some d0 =>
        match Node.findAll "p" d0 with
        | _ :: p1 :: _ => String.join p1.strippedStrings
        | _ => ""
  let (before, date) := match Node.find "ul" row with
    | none => ("", "")
    | some ul =>
        let vals := Node.findAllClass "li" "list-group-item" ul
        (if 2 ≤ vals.length then
          String.join (((vals.get? 1).map Node.strippedStrings).getD [])
         else "",
         if 4 ≤ vals.length then
          String.join (((vals.get? 3).map Node.strippedStrings).getD [])
         else "")
  Except.ok (decisionInit
    [("title", DVal.dstr title), ("uri", DVal.dstr uri),
     ("catchwords", DVal.dstr catchwords), ("before", DVal.dstr before),
     ("decisionDate", DVal.dstr date)])

/-- `Search.scrape_one_result`: the whole body runs in a `try`; any exception
is caught and logged and the function returns Python `None`. -/
def scrape_one_result (row : Node) : Option DecisionRec :=
  (scrape_one_result_core row).toOption

/-- `Search.scrape_results`: read the total match count from the `<h1>`
heading, then map `scrape_one_result` over every `div.row result` marker. -/
def scrape_results (soup : Node) : Except PyErr (Nat × List (Option DecisionRec)) := do
  let h1 ← match Node.find "h1" soup with
    | some h => Except.ok h
    | none => Except.error PyErr.attributeError
  let header_strings := h1.strippedStrings
  if header_strings.length < 2 then
    Except.error (PyErr.caseLaw "Couldn't get results element from HTML")
  match matchResultsRe ((header_strings.get? 1).getD "") with
  | none => Except.error (PyErr.caseLaw "Couldn't get number of results from HTML")
  | some n_results =>
      if n_results ≠ 0 then
        let results := Node.findAllClass "div" "row result" soup
        Except.ok (n_results, results.map scrape_one_result)
      else
        Except.ok (n_results, [])

/-! ## search.py: the pager (`Search.results`) -/

/-- An HTTP response as the `requests` collaborator returns it. -/
structure Response where
  status_code : Nat
  text : String

/-- An observable event of a pager run: one network fetch (with the exact
parameter list used) or one `time.sleep` pause. -/
inductive Ev where
  | fetchEv (params : List Param)
  | pauseEv (secs : Nat)
deriving Repr, DecidableEq

/-- Outcome of driving the `Search.results` generator to exhaustion: the
events in order, the decisions yielded, and `some e` when iteration ended by
raising `e` rather than completing. -/
structure PagerRun where
  events : List Ev
  yielded : List (Option DecisionRec)
  outcome : Option PyErr
deriving Repr, DecidableEq

/-- The `for page in range(1, n_pages)` loop of `Search.results`: pause,
rewrite the page parameter in place, fetch, scrape and yield; a non-200
status raises `CaseLawException`. -/
def pagerLoop (net : List Param → Response) (soupOf : String → Node) :
    List Nat → List Param → PagerRun → PagerRun
  | [], _, run => run
  | page :: rest, params, run =>
      let params' := params.set 0 ("page", some (Kw.str (toString page)))
      let run' := { run with
        events := run.events ++ [Ev.pauseEv SEARCH_PAUSE_SECONDS, Ev.fetchEv params'] }
      let r := net params'
      if r.status_code = 200 then
        match scrape_results (soupOf r.text) with
        | .error e => { run' with outcome := some e }
        | .ok (_, results) =>
            pagerLoop net soupOf rest params'
              { run' with yielded := run'.yielded ++ results }
      else
        let e := PyErr.caseLaw ("Bad status_code " ++ toString r.status_code)
        { run' with outcome := some e }

/-- `Search.results`, driven to exhaustion against a network collaborator
`net` and an HTML-parser collaborator `soupOf`.  Faithful to the source: a
non-200 status on the first fetch does not raise `CaseLawException` — control
falls through to the `n_pages` computation, which reads the never-assigned
local `n_results` and so raises `UnboundLocalError`. -/
def resultsRun (net : List Param → Response) (soupOf : String → Node)
    (kwargs : List (String × Kw)) : PagerRun :=
  match build_query (searchInit kwargs) with
  | .error e => { events := [], yielded := [], outcome := some e }
  | .ok params =>
      let r := net params
      let ev0 := [Ev.fetchEv params]
      if r.status_code = 200 then
        match scrape_results (soupOf r.text) with
        | .error e => { events := ev0, yielded := [], outcome := some e }
        | .ok (n_results, results) =>
            if n_results = 0 then
              { events := ev0, yielded := [], outcome := none }
            else
              let n_pages := (n_results - 1) / PAGE_SIZE + 1
              pagerLoop net soupOf (List.range' 1 (n_pages - 1)) params
                { events := ev0, yielded := results, outcome := none }
      else
        { events := ev0, yielded := [],
          outcome := some (PyErr.unboundLocal "n_results") }

/-! ## decision.py: shared scraper machinery -/

/-- Python dict assignment `d[k] = v` on an insertion-ordered dict: replaces
in place when the key exists, appends otherwise. -/
def dictSet {α β : Type} [DecidableEq α] : List (α × β) → α → β → List (α × β)
  | [], k, v => [(k, v)]
  | (k', v') :: rest, k, v =>
      if k' = k then (k, v) :: rest else (k', v') :: dictSet rest k v

/-- Python `d.pop(k)`'s removal effect. -/
def dictPop {α β : Type} [DecidableEq α] : List (α × β) → α → List (α × β)
  | [], _ => []
  | (k', v') :: rest, k => if k' = k then rest else (k', v') :: dictPop rest k

/-- Python `d[k]` on a scraper `_values` dict whose key is known present
(`dnone` stands for Python `None`, which is also the `get` miss result). -/
def dGet (vals : List (String × DVal)) (k : String) : DVal :=
  (vals.lookup k).getD DVal.dnone

/-- Python truthiness of a `_values` entry. -/
def truthy : DVal → Bool
  | DVal.dnone => false
  | DVal.dstr s => !(s == "")
  | DVal.dlist l => !l.isEmpty

/-- `Scraper._strings`: `"\n".join(elt.stripped_strings)`. -/
def stringsOf (elt : Node) : String :=
  String.intercalate "\n" elt.strippedStrings

/-- `Scraper._fix_whitespace` applied to a `_values` entry: replaces newlines
with spaces in each element of a list value.  Iterating a string value would
iterate its characters (each unchanged by the replace); `None` has no
iteration and raises `TypeError`. -/
def fix_whitespace_d : DVal → Except PyErr DVal
  | DVal.dlist l => .ok (DVal.dlist (l.map replaceNewlineSpace))
  | DVal.dstr s => .ok (DVal.dlist (s.data.map (fun c => String.singleton c)))
  | DVal.dnone => .error PyErr.typeError

/-- Python `v.split("\n")` on a `_values` entry: only strings have `.split`;
a list or `None` raises `AttributeError`. -/
def pySplitNewline : DVal → Except PyErr DVal
  | DVal.dstr s => .ok (DVal.dlist (splitOnChars ['\n'] s))
  | DVal.dlist _ => .error PyErr.attributeError
  | DVal.dnone => .error PyErr.attributeError

/-- Python `v[0]` on a `_values` entry: first element of a list, first
character (as a one-character string) of a string; empty either way raises
`IndexError`, and `None` is not subscriptable (`TypeError`). -/
def pySubscriptZero : DVal → Except PyErr DVal
  | DVal.dstr s =>
      if s == "" then .error PyErr.indexError
      else .ok (DVal.dstr (String.mk (s.data.take 1)))
  | DVal.dlist [] => .error PyErr.indexError
  | DVal.dlist (x :: _) => .ok (DVal.dstr x)
  | DVal.dnone => .error PyErr.typeError

/-- Python `a + b` for two list-valued `_values` entries. -/
def pyListAdd : DVal → DVal → Except PyErr DVal
  | DVal.dlist a, DVal.dlist b => .ok (DVal.dlist (a ++ b))
  | _, _ => .error PyErr.typeError

/-- Python `int(s)`: optional surrounding whitespace and sign, then digits;
anything else raises `ValueError`. -/
def pyInt (s : String) : Except PyErr Int :=
  let t := pyStrip s
  let (sign, ds) : Int × List Char := match t.data with
    | '-' :: rest => (-1, rest)
    | '+' :: rest => (1, rest)
    | l => (1, l)
  if ds.isEmpty ∨ ds.any (fun c => ¬ c.isDigit) then
    .error (PyErr.valueError "invalid literal for int")
  else
    .ok (sign * (digitsToNat ds : Int))

/-- A scraper's `_raw` dict: keys are the label texts (`dt.string` can be
Python `None`, hence `Option`), values single strings or paragraph lists. -/
abbrev RawDict := List (Option String × DVal)

/-- The key-matching comprehension of `Scraper._find_value`:
`[f for f in self._raw.keys() if substring in f]`; a `None` key makes the
`in` test raise `TypeError`. -/
def rawKeysMatch : List (Option String) → String → Except PyErr (List String)
  | [], _ => .ok []
  | none :: _, _ => .error PyErr.typeError
  | some k :: rest, sub => do
      let ms ← rawKeysMatch rest sub
      Except.ok (if strContains k sub then k :: ms else ms)

/-- `Scraper._find_value`: the value of the first `_raw` key containing the
substring; an empty string (plus a logged warning) when nothing matches. -/
def find_value (raw : RawDict) (substring : String) : Except PyErr DVal := do
  let found ← rawKeysMatch (raw.map Prod.fst) substring
  match found with
  | [] => Except.ok (DVal.dstr "")
  | m :: _ => Except.ok ((raw.lookup (some m)).getD DVal.dnone)

/-- `Scraper._scrape_title`: space-joined text of the `<title>` tag, cut at
the first `-`, trimmed; Python `None` when there is no title tag. -/
def scrape_title (soup : Node) : Option String :=
  match Node.find "title" soup with
  | some t =>
      let title_text := String.intercalate " " t.strippedStrings
      some (pyStrip ((splitOnChars ['-'] title_text).headD ""))
  | none => none

/-- `Scraper._scrape_uri`: the decision's own uri when truthy, else the first
`/decision`-prefixed link cut to its first three path segments, else Python
`None`. -/
def scrape_uri (soup : Node) (duri : DVal) : DVal :=
  if truthy duri then duri
  else
    let links := Node.findAll "a" soup
    let dl_links := links.filter
      (fun a => String.mk ((a.getAttrD "href" "").data.take 9) = "/decision")
    match dl_links.head? with
    | none => DVal.dnone
    | some a =>
        let href := splitOnChars ['/'] (a.getAttrD "href" "")
        DVal.dstr (String.intercalate "/" (href.take 3))

/-! ## decision.py: NewScScraper -/

/-- `NewScScraper.SUBSTRINGS`, in source (dict insertion) order. -/
def NEW_SUBSTRINGS : List (String × String) := [
  ("mnc", "Medium Neutral Citation"),
  ("hearingDates", "Hearing dates"),
  ("dateOfOrders", "Date of orders"),
  ("decisionDate", "Decision date"),
  ("jurisdiction", "Jurisdiction"),
  ("before", "Before"),
  ("decision", "Decision:"),
  ("catchwords", "Catchwords"),
  ("legislationCited", "Legislation Cited"),
  ("casesCited", "Cases Cited"),
  ("parties", "Parties"),
  ("category", "Category"),
  ("fileNumber", "File Number"),
  ("representation", "Representation")]

/-- The `_raw`-building loop of `NewScScraper._scrape_metadata`: each `<dt>`
is paired with its next `<dd>` sibling (a missing one raises
`AttributeError` when `find_all` is called on `None`); the value is the list
of `<p>` texts when present, else the flattened text. -/
def newBuildRaw (soup : Node) : Except PyErr RawDict :=
  (Node.findAllWithSiblings "dt" soup).foldlM (fun raw x => do
    let dt := x.1
    let dd ← match x.2.find? (fun s => s.nameOf = some "dd") with
      | some d => Except.ok d
      | none => Except.error PyErr.attributeError
    let header := dt.stringOf
    let paras := Node.findAll "p" dd
    let v := if paras.isEmpty then DVal.dstr (stringsOf dd)
             else DVal.dlist (paras.map stringsOf)
    Except.ok (dictSet raw header v)) []

/-- `NewScScraper._ensure_list`: lists pass through, strings are
newline-split; `None.split` would raise `AttributeError`. -/
def ensure_list : DVal → Except PyErr DVal
  | DVal.dlist l => .ok (DVal.dlist l)
  | DVal.dstr s => .ok (DVal.dlist (splitOnChars ['\n'] s))
  | DVal.dnone => .error PyErr.attributeError

/-- `NewScScraper._catchwords`: `None` or falsy values give `[]`, otherwise
the first element is split on em-dash or hyphen and each segment trimmed. -/
def new_catchwords : DVal → DVal
  | DVal.dnone => DVal.dlist []
  | DVal.dlist [] => DVal.dlist []
  | DVal.dstr s =>
      if s == "" then DVal.dlist []
      else DVal.dlist ((splitOnChars ['—', '-'] (String.mk (s.data.take 1))).map pyStrip)
  | DVal.dlist (x :: _) =>
      DVal.dlist ((splitOnChars ['—', '-'] x).map pyStrip)

/-- `NewScScraper._ignored_paras`: disclaimer/lastupdate-classed paragraphs
and paragraphs whose text is an asterisk run (regex `\*+` via `re.match`,
i.e. anchored at the start). -/
def ignored_paras (p : Node) : Bool :=
  (match p.attrsOf.lookup "class" with
   | some cls =>
       (splitOnChars [' '] cls).contains "disclaimer"
         || (splitOnChars [' '] cls).contains "lastupdate"
   | none => false)
  || listStartsWith (stringsOf p).data ['*']

/-- The numbered-paragraph emission for an `<ol>` in
`NewScScraper._scrape_judgment`: items numbered from the list's `start`. -/
def numberItems (n : Int) : List Node → List String
  | [] => []
  | li :: rest => (toString n ++ " " ++ stringsOf li) :: numberItems (n + 1) rest

/-- `NewScScraper._scrape_judgment`: walk the direct children of
`div.body`; `<h2>` becomes a `##`-prefixed paragraph, `<ol>` emits numbered
items (a missing or non-numeric `start` attribute raises), `<p>` is kept
unless ignored or empty.  No body div gives `[]` with a warning. -/
def new_scrape_judgment (soup : Node) : Except PyErr (List String) := do
  match (Node.findAllClass "div" "body" soup).head? with
  | none => Except.ok []
  | some body =>
      body.childrenOf.foldlM (fun paragraphs child => do
        if child.nameOf = some "h2" then
          Except.ok (paragraphs ++ ["##" ++ stringsOf child])
        else if child.nameOf = some "ol" then do
          let startv ← child.getAttr "start"
          let n ← pyInt startv
          Except.ok (paragraphs ++ numberItems n (Node.findAll "li" child))
        else if child.nameOf = some "p" then
          if ¬ ignored_paras child then
            let text := stringsOf child
            Except.ok (if text == "" then paragraphs else paragraphs ++ [text])
          else
            Except.ok paragraphs
        else
          Except.ok paragraphs) []

/-- `NewScScraper._scrape_metadata`: build `_raw`, resolve every field by
substring, normalise catchwords/legislation/cases to lists, take
`decision[0]`, split catchwords, fix whitespace, newline-split parties and
representation, then scrape the judgment. -/
def new_scrape_metadata (soup : Node) : Except PyErr (List (String × DVal)) := do
  let raw ← newBuildRaw soup
  let values ← NEW_SUBSTRINGS.foldlM (fun vals fs => do
      let v ← find_value raw fs.2
      Except.ok (dictSet vals fs.1 v)) ([] : List (String × DVal))
  let values ← ["catchwords", "legislationCited", "casesCited"].foldlM
      (fun vals f => do
        let v ← ensure_list (dGet vals f)
        Except.ok (dictSet vals f v)) values
  let dec ← pySubscriptZero (dGet values "decision")
  let values := dictSet values "decision" dec
  let values := dictSet values "catchwords" (new_catchwords (dGet values "catchwords"))
  let values ← ["legislationCited", "casesCited"].foldlM
      (fun vals f => do
        let v ← fix_whitespace_d (dGet vals f)
        Except.ok (dictSet vals f v)) values
  let p ← pySplitNewline (dGet values "parties")
  let values := dictSet values "parties" p
  let rep ← pySplitNewline (dGet values "representation")
  let values := dictSet values "representation" rep
  let jdg ← new_scrape_judgment soup
  Except.ok (dictSet values "judgment" (DVal.dlist jdg))

/-! ## decision.py: OldScScraper -/

/-- `OldScScraper.SUBSTRINGS`, in source (dict insertion) order. -/
def OLD_SUBSTRINGS : List (String × String) := [
  ("mnc", "CITATION"),
  ("hearingDates", "HEARING DATE"),
  ("dateOfOrders", "DATE OF ORDERS"),
  ("decisionDate", "JUDGMENT DATE"),
  ("jurisdiction", "JURISDICTION"),
  ("before", "JUDGMENT OF"),
  ("decision", "DECISION"),
  ("catchwords", "CATCHWORDS"),
  ("legislationCited", "LEGISLATION CITED"),
  ("casesCited", "CASES CITED"),
  ("parties", "PARTIES"),
  ("category", "CATEGORY"),
  ("fileNumber", "FILE NUMBER"),
  ("counsel", "COUNSEL"),
  ("solicitors", "SOLICITORS")]

/-- The `_raw`-building loop of `OldScScraper._scrape_metadata`: every table
row with at least three cells maps its second cell's text to its third
cell's text. -/
def oldBuildRaw (soup : Node) : RawDict :=
  (Node.findAll "tr" soup).foldl (fun raw row =>
    match Node.findAll "td" row with
    | _ :: c1 :: c2 :: _ =>
        dictSet raw (some (stringsOf c1)) (DVal.dstr (stringsOf c2))
    | _ => raw) []

/-- `OldScScraper._catchwords`: `None` gives `[]`, a string is hyphen-split
and trimmed; a list value would have no `.split` (`AttributeError`). -/
def old_catchwords : DVal → Except PyErr DVal
  | DVal.dnone => .ok (DVal.dlist [])
  | DVal.dstr s => .ok (DVal.dlist ((splitOnChars ['-'] s).map pyStrip))
  | DVal.dlist _ => .error PyErr.attributeError

/-- Append a part to the last accumulator entry (`paragraphs[-1].append`). -/
def appendLast : List (List String) → String → List (List String)
  | [], _ => []
  | [p], x => [p ++ [x]]
  | p :: rest, x => p :: appendLast rest x

/-- The per-cell child walk of `OldScScraper._scrape_judgment` for a cell
that contains at least one `<ul>`. -/
def oldJudgmentCell : List Node → List (List String) → List (List String)
  | [], paragraphs => paragraphs
  | child :: rest, paragraphs =>
      if child.nameOf = some "ul" then
        let ul_content := pyStrip (String.intercalate "\n" child.strippedStrings)
        let paragraphs :=
          if ¬ (ul_content == "") ∧ paragraphs ≠ [] then appendLast paragraphs ul_content
          else paragraphs
        oldJudgmentCell rest (paragraphs ++ [[]])
      else
        if paragraphs ≠ [] then
          let sectionText := child.textAll
          let paragraphs :=
            if ¬ (pyStrip sectionText == "") then appendLast paragraphs sectionText
            else paragraphs
          oldJudgmentCell rest paragraphs
        else
          oldJudgmentCell rest paragraphs

/-- `OldScScraper._scrape_judgment`: accumulate list items across every
table cell containing a `<ul>`, join each accumulator entry with spaces,
drop blank entries. -/
def old_scrape_judgment (soup : Node) : List String :=
  let paragraphs := (Node.findAll "tr" soup).foldl (fun paragraphs tr =>
    (Node.findAll "td" tr).foldl (fun paragraphs td =>
      if (Node.findAll "ul" td).isEmpty then paragraphs
      else oldJudgmentCell td.childrenOf paragraphs) paragraphs) []
  ((paragraphs.map (fun p => String.intercalate " " p)).filter
    (fun p => !(pyStrip p == "")))

/-- `OldScScraper._scrape_metadata`: a page with no table rows returns the
empty dict at once; otherwise build `_raw`, resolve every field, post-process
catchwords and the list fields, merge counsel and solicitors into
`representation`, then scrape the judgment. -/
def old_scrape_metadata (soup : Node) : Except PyErr (List (String × DVal)) := do
  let rows := Node.findAll "tr" soup
  if rows.isEmpty then
    Except.ok []
  else
    let raw := oldBuildRaw soup
    let values ← OLD_SUBSTRINGS.foldlM (fun vals fs => do
        let v ← find_value raw fs.2
        Except.ok (dictSet vals fs.1 v)) ([] : List (String × DVal))
    let cw ← old_catchwords (dGet values "catchwords")
    let values := dictSet values "catchwords" cw
    let values ← ["legislationCited", "casesCited", "parties", "counsel", "solicitors"].foldlM
        (fun vals f => do
          let v ← pySplitNewline (dGet vals f)
          Except.ok (dictSet vals f v)) values
    let counselV := dGet values "counsel"
    let values :=
      if counselV ≠ DVal.dnone then
        dictSet (dictPop values "counsel") "representation" counselV
      else
        dictSet values "representation" (DVal.dlist [])
    let solicitorsV := dGet values "solicitors"
    let values ←
      if solicitorsV ≠ DVal.dnone then do
        let merged ← pyListAdd (dGet values "representation") solicitorsV
        Except.ok (dictSet (dictPop values "solicitors") "representation" merged)
      else
        Except.ok values
    Except.ok (dictSet values "judgment" (DVal.dlist (old_scrape_judgment soup)))

/-! ## decision.py: dispatch and `Decision.scrape` -/

/-- The two scraper subclasses. -/
inductive Layout where
  | oldSc
  | newSc
deriving Repr, DecidableEq

/-- `Decision._get_scraper`: new layout iff the document has a `<dt>`. -/
def get_scraper (soup : Node) : Layout :=
  if (Node.findAll "dt" soup).isEmpty then Layout.oldSc else Layout.newSc

/-- `Scraper.scrape`: the layout's metadata dict with `title` and `uri`
written on top. -/
def scraper_scrape (soup : Node) (duri : DVal) (layout : Layout) :
    Except PyErr (List (String × DVal)) := do
  let data ← match layout with
    | Layout.oldSc => old_scrape_metadata soup
    | Layout.newSc => new_scrape_metadata soup
  let data := dictSet data "title"
      (match scrape_title soup with
       | some t => DVal.dstr t
       | none => DVal.dnone)
  Except.ok (dictSet data "uri" (scrape_uri soup duri))

/-- `Decision.scrape`: pick a scraper from the parsed HTML and merge its
values into `_values`; any exception is caught, a warning logged and `False`
returned, leaving `_values` untouched. -/
def decision_scrape (d : DecisionRec) (soup : Node) : Bool × DecisionRec :=
  match scraper_scrape soup (d.get "uri") (get_scraper soup) with
  | .ok data => (true, ⟨data.foldl (fun vals kv => dictSet vals kv.1 kv.2) d.values⟩)
  | .error _ => (false, d)

/-! ## Concrete fixture documents used by counterexamples and witnesses -/

/-- The full-field name set of the decision record (the fields a decision
page scrape is meant to populate). -/
def FULL_FIELDS : List String :=
  ["mnc", "hearingDates", "dateOfOrders", "jurisdiction", "decision",
   "catchwords", "legislationCited", "casesCited", "parties", "category",
   "fileNumber", "representation", "judgment"]

/-- A results page with a valid heading and two result rows, the second of
which lacks the `<h4>` header and so fails per-row extraction. -/
def resultsPage : Node :=
  Node.tag "html" [] [
    Node.tag "h1" [] [Node.text "Search results", Node.text "Displaying 1 - 2 of 2"],
    Node.tag "div" [("class", "row result")] [
      Node.tag "h4" [] [Node.tag "a" [("href", "/decision/abc")] [Node.text "Case One"]]],
    Node.tag "div" [("class", "row result")] [Node.tag "span" [] []]]

/-- The summary record scraped from the first row of `resultsPage`. -/
def caseOneRec : DecisionRec :=
  decisionInit
    [("title", DVal.dstr "Case One"), ("uri", DVal.dstr "/decision/abc"),
     ("catchwords", DVal.dstr ""), ("before", DVal.dstr ""),
     ("decisionDate", DVal.dstr "")]

/-- An old-layout (no `<dt>`) decision page with no table rows at all. -/
def oldEmpty : Node := Node.tag "html" [] [Node.text "x"]

/-- A decision that already has a uri and title from the results page. -/
def dWithUri : DecisionRec :=
  decisionInit [("uri", DVal.dstr "/decision/abc"), ("title", DVal.dstr "T")]

/-- A new-layout page whose `Decision:` label carries flat (non-paragraph)
text. -/
def newFlat : Node :=
  Node.tag "html" [] [
    Node.tag "title" [] [Node.text "Case v Case - 123"],
    Node.tag "dl" [] [
      Node.tag "dt" [] [Node.text "Decision: "],
      Node.tag "dd" [] [Node.text "Dismissed"]]]

/-- A new-layout page whose `Decision:` label carries a paragraph list. -/
def newListDec : Node :=
  Node.tag "html" [] [
    Node.tag "dl" [] [
      Node.tag "dt" [] [Node.text "Decision: "],
      Node.tag "dd" [] [
        Node.tag "p" [] [Node.text "Costs ordered"],
        Node.tag "p" [] [Node.text "Further paragraph"]]]]

/-- A new-layout page with no label containing `Decision:`. -/
def newNoDec : Node :=
  Node.tag "html" [] [
    Node.tag "dl" [] [
      Node.tag "dt" [] [Node.text "Catchwords"],
      Node.tag "dd" [] [Node.text "A - B"]]]

/-- An old-layout page with one metadata row and neither a COUNSEL nor a
SOLICITORS label. -/
def oldNoCounsel : Node :=
  Node.tag "html" [] [
    Node.tag "table" [] [
      Node.tag "tr" [] [
        Node.tag "td" [] [],
        Node.tag "td" [] [Node.text "CITATION"],
        Node.tag "td" [] [Node.text "Foo v Bar [2001] NSWSC 1"]]]]

/-- An old-layout page with counsel and solicitors rows. -/
def oldFull : Node :=
  Node.tag "html" [] [
    Node.tag "table" [] [
      Node.tag "tr" [] [
        Node.tag "td" [] [],
        Node.tag "td" [] [Node.text "CITATION"],
        Node.tag "td" [] [Node.text "Foo v Bar [2001] NSWSC 1"]],
      Node.tag "tr" [] [
        Node.tag "td" [] [],
        Node.tag "td" [] [Node.text "COUNSEL"],
        Node.tag "td" [] [Node.text "A QC", Node.text "B SC"]],
      Node.tag "tr" [] [
        Node.tag "td" [] [],
        Node.tag "td" [] [Node.text "SOLICITORS"],
        Node.tag "td" [] [Node.text "C & Co"]]]]

/-- A results page heading reporting 1284 total matches and no result rows. -/
def okPage : Node :=
  Node.tag "html" [] [
    Node.tag "h1" [] [Node.text "r", Node.text "Displaying 1 - 20 of 1284"]]

/-- The parameter list built for an empty search request. -/
def builtEmpty : List Param :=
  (build_query (searchInit [])).toOption.getD []

/-! ## Helper lemmas -/

theorem exceptBind_ok {α β ε : Type} {e : Except ε α} {f : α → Except ε β} {b : β}
    (h : e.bind f = Except.ok b) : ∃ a, e = Except.ok a ∧ f a = Except.ok b := by
  cases e with
  | ok a => exact ⟨a, rfl, h⟩
  | error e => simp [Except.bind] at h

theorem index_to_court_ok (ct : String) (hk : courtTypeKnown ct = true)
    (i : Fin (courtsOf ct).length) :
    index_to_court ct ((i : Nat) + 1) = Except.ok ((courtsOf ct).get i) := by
  have hi := i.isLt
  rw [index_to_court, if_neg (by simp [hk]), if_neg]
  · have h1 : (((i : Nat) + 1 : Int) - 1).toNat = (i : Nat) := by omega
    rw [h1, List.get?_eq_get hi]
    rfl
  · omega

theorem index_to_court_oor (ct : String) (hk : courtTypeKnown ct = true)
    (j : Int) (hj : j < 1 ∨ ((courtsOf ct).length : Int) < j) :
    index_to_court ct j = Except.error (PyErr.valueError "Court index out of range") := by
  rw [index_to_court, if_neg (by simp [hk]), if_pos]
  rcases hj with h | h
  · exact Or.inl h
  · exact Or.inr h

/-- C9: for category "courts" or "tribunals" and any 1-based ordinal within
the category's table, `index_to_court` returns the table entry at that
position; ordinals below 1 or above the count raise the out-of-range
`ValueError`, and any other category raises the unknown-category
`ValueError`. -/
theorem claim_C9 (court_type : String) :
    ((court_type = "courts" ∨ court_type = "tribunals") →
      (∀ i : Fin (courtsOf court_type).length,
          index_to_court court_type ((i : Nat) + 1) =
            Except.ok ((courtsOf court_type).get i)) ∧
      (∀ j : Int, (j < 1 ∨ ((courtsOf court_type).length : Int) < j) →
          index_to_court court_type j =
            Except.error (PyErr.valueError "Court index out of range")))
    ∧ (¬ (court_type = "courts" ∨ court_type = "tribunals") →
        ∀ j : Int, index_to_court court_type j =
          Except.error (PyErr.valueError "Unknown court type")) := by
  constructor
  · intro hct
    have hk : courtTypeKnown court_type = true := by
      rcases hct with h | h <;> subst h <;> decide
    exact ⟨index_to_court_ok court_type hk, index_to_court_oor court_type hk⟩
  · intro hct j
    push_neg at hct
    have hk : courtTypeKnown court_type = false := by
      rw [courtTypeKnown, COURTS]
      rw [List.lookup, List.lookup, List.lookup]
      rw [beq_eq_false_iff_ne.mpr hct.1, beq_eq_false_iff_ne.mpr hct.2]
      rfl
    rw [index_to_court, if_pos (by simp [hk])]

/-- Witness for C9 at category "courts", ordinal 1. -/
theorem claim_C9_witness :
    index_to_court "courts" 1 =
      Except.ok ("54a634063004de94513d827a", "Children's Court") := by
  have h := ((claim_C9 "courts").1 (Or.inl rfl)).1 ⟨0, by decide⟩
  simpa using h

theorem countP_key_singleton (a : String) (v : Option Kw) (k : String) :
    List.countP (fun q : Param => q.1 == k) [(a, v)] = if a = k then 1 else 0 := by
  by_cases h : a = k
  · subst h
    simp [List.countP_cons]
  · simp [List.countP_cons, h, beq_eq_false_iff_ne.mpr h]

theorem courtsLoop_length (ct : String) (ids : List String) :
    ∀ tbl : List (String × String),
      (courtsLoop ct ids tbl).length =
        tbl.length + (tbl.filter (fun c => ids.contains c.1)).length := by
  intro tbl
  induction tbl with
  | nil => rfl
  | cons c rest ih =>
      rw [courtsLoop]
      simp only [List.length_append, List.filter_cons, List.length_cons]
      rw [ih]
      by_cases hsel : ids.contains c.1
      · rw [if_pos hsel, if_pos hsel]
        simp only [List.length_cons, List.length_singleton, List.length_nil]
        omega
      · rw [if_neg hsel, if_neg hsel]
        simp only [List.length_nil, List.length_singleton]
        omega

theorem courtsLoop_count_flag (ct : String) (ids : List String) (k : String)
    (hk : k = "_" ++ ct) (hne : ct ≠ k) :
    ∀ tbl : List (String × String),
      (courtsLoop ct ids tbl).countP (fun q => q.1 == k) = tbl.length := by
  intro tbl
  induction tbl with
  | nil => rfl
  | cons c rest ih =>
      rw [courtsLoop]
      simp only [List.countP_append]
      rw [ih, countP_key_singleton, if_pos hk.symm]
      by_cases hsel : ids.contains c.1
      · rw [if_pos hsel, countP_key_singleton, if_neg hne]
        simp only [List.length_cons]
        omega
      · rw [if_neg hsel]
        simp only [List.countP_nil, List.length_cons]
        omega

theorem courtsLoop_count_val (ct : String) (ids : List String) (k : String)
    (hk : ct = k) (hne : "_" ++ ct ≠ k) :
    ∀ tbl : List (String × String),
      (courtsLoop ct ids tbl).countP (fun q => q.1 == k) =
        (tbl.filter (fun c => ids.contains c.1)).length := by
  intro tbl
  induction tbl with
  | nil => rfl
  | cons c rest ih =>
      rw [courtsLoop]
      simp only [List.countP_append, List.filter_cons]
      rw [ih, countP_key_singleton, if_neg hne]
      by_cases hsel : ids.contains c.1
      · rw [if_pos hsel, if_pos hsel, countP_key_singleton, if_pos hk]
        simp only [List.length_cons]
        omega
      · rw [if_neg hsel, if_neg hsel]
        simp only [List.countP_nil]
        omega

theorem courtsLoop_count_other (ct : String) (ids : List String) (k : String)
    (h1 : ct ≠ k) (h2 : "_" ++ ct ≠ k) :
    ∀ tbl : List (String × String),
      (courtsLoop ct ids tbl).countP (fun q => q.1 == k) = 0 := by
  intro tbl
  induction tbl with
  | nil => rfl
  | cons c rest ih =>
      rw [courtsLoop]
      simp only [List.countP_append]
      rw [ih, countP_key_singleton, if_neg h2]
      by_cases hsel : ids.contains c.1
      · rw [if_pos hsel, countP_key_singleton, if_neg h1]
      · rw [if_neg hsel]
        simp only [List.countP_nil]

theorem countP_key_map_fields (g : String → Option Kw) (k : String) :
    ∀ l : List String, ¬ k ∈ l →
      List.countP (fun q : Param => q.1 == k) (l.map (fun f => (f, g f))) = 0 := by
  intro l hk
  induction l with
  | nil => rfl
  | cons a rest ih =>
      simp only [List.map_cons, List.countP_cons]
      have ha : (a == k) = false :=
        beq_eq_false_iff_ne.mpr (fun h => hk (h ▸ List.mem_cons_self a rest))
      rw [ih (fun h => hk (List.mem_cons_of_mem a h))]
      simp [ha]

theorem lookup_map_self {β : Type} (g : String → β) (f : String) :
    ∀ l : List String, f ∈ l →
      (l.map (fun x => (x, g x))).lookup f = some (g f) := by
  intro l hf
  induction l with
  | nil => cases hf
  | cons a rest ih =>
      by_cases h : f = a
      · subst h
        simp [List.lookup]
      · rcases List.mem_cons.mp hf with h2 | h2
        · exact absurd h2 h
        · simpa [List.lookup, beq_eq_false_iff_ne.mpr h] using ih h2

theorem searchInit_lookup (kwargs : List (String × Kw)) (f : String)
    (hf : f ∈ TEXT_FIELDS ++ COURTS_FIELDS) :
    (searchInit kwargs).lookup f = some (kwargs.lookup f) :=
  lookup_map_self (fun x => kwargs.lookup x) f _ hf

theorem queryIndex_searchInit (kwargs : List (String × Kw)) (f : String)
    (hf : f ∈ TEXT_FIELDS ++ COURTS_FIELDS) :
    queryIndex (searchInit kwargs) f = Except.ok (kwargs.lookup f) := by
  rw [queryIndex, searchInit_lookup kwargs f hf]

theorem courtsOf_courts : courtsOf "courts" = COURTS_courts := rfl

theorem courtsOf_tribunals : courtsOf "tribunals" = COURTS_tribunals := rfl

theorem courts_query_ok (ct : String) (idx : Option Kw) (pc : List Param)
    (h : courts_query ct idx = Except.ok pc) :
    ∃ ids, pc = courtsLoop ct ids (courtsOf ct) := by
  rw [courts_query.eq_def] at h
  cases idx with
  | none =>
      obtain ⟨ids, hids, h2⟩ := exceptBind_ok h
      cases h2
      exact ⟨ids, rfl⟩
  | some kw =>
      cases kw with
      | str s =>
          obtain ⟨ids, hids, h2⟩ := exceptBind_ok h
          cases hids
      | ints l =>
          obtain ⟨ids, hids, h2⟩ := exceptBind_ok h
          cases h2
          exact ⟨ids, rfl⟩

theorem build_query_shape (kwargs : List (String × Kw)) (params : List Param)
    (h : build_query (searchInit kwargs) = Except.ok params) :
    ∃ cids tids : List String,
      courts_query "courts" (kwargs.lookup "courts") =
        Except.ok (courtsLoop "courts" cids COURTS_courts) ∧
      courts_query "tribunals" (kwargs.lookup "tribunals") =
        Except.ok (courtsLoop "tribunals" tids COURTS_tribunals) ∧
      params = ("page", some (Kw.str ""))
        :: TEXT_FIELDS.map (fun f => (f, queryGet (searchInit kwargs) f (some (Kw.str ""))))
        ++ (courtsLoop "courts" cids COURTS_courts
            ++ courtsLoop "tribunals" tids COURTS_tribunals) := by
  rw [build_query] at h
  obtain ⟨extra, hextra, hp⟩ := exceptBind_ok h
  cases hp
  rw [show COURTS_FIELDS = ["courts", "tribunals"] from rfl] at hextra
  rw [List.foldlM_cons] at hextra
  obtain ⟨b1, hb1, hrest⟩ := exceptBind_ok hextra
  obtain ⟨idxc, hidxc, h2⟩ := exceptBind_ok hb1
  rw [queryIndex_searchInit kwargs "courts" (by decide)] at hidxc
  cases hidxc
  obtain ⟨pc, hpc, h3⟩ := exceptBind_ok h2
  cases h3
  rw [List.foldlM_cons] at hrest
  obtain ⟨b2, hb2, hone⟩ := exceptBind_ok hrest
  obtain ⟨idxt, hidxt, h4⟩ := exceptBind_ok hb2
  rw [queryIndex_searchInit kwargs "tribunals" (by decide)] at hidxt
  cases hidxt
  obtain ⟨pt, hpt, h5⟩ := exceptBind_ok h4
  cases h5
  rw [List.foldlM_nil] at hone
  have hone2 : Except.ok ([] ++ pc ++ pt) = Except.ok extra := hone
  cases hone2
  obtain ⟨cids, hcids⟩ := courts_query_ok _ _ _ hpc
  obtain ⟨tids, htids⟩ := courts_query_ok _ _ _ hpt
  subst hcids
  subst htids
  rw [courtsOf_courts] at hpc
  rw [courtsOf_tribunals] at hpt
  refine ⟨cids, tids, hpc, hpt, ?_⟩
  simp [courtsOf_courts, courtsOf_tribunals]

/-- C5 (amended): the built parameter list starts with the page parameter,
carries one parameter per text field in `TEXT_FIELDS` order, one
`_courts`/`_tribunals` flag per directory entry and one value parameter per
selected entry; its total length is 1 + 11 + 13 + 14 plus the number of
selected entries of each category, so it is determined by the category sizes
TOGETHER WITH the selection sizes, not by the category sizes alone. -/
theorem claim_C5 (kwargs : List (String × Kw)) (params : List Param)
    (h : build_query (searchInit kwargs) = Except.ok params) :
    ∃ cids tids : List String,
      courts_query "courts" (kwargs.lookup "courts") =
        Except.ok (courtsLoop "courts" cids COURTS_courts) ∧
      courts_query "tribunals" (kwargs.lookup "tribunals") =
        Except.ok (courtsLoop "tribunals" tids COURTS_tribunals) ∧
      params.head? = some ("page", some (Kw.str "")) ∧
      (∀ i : Fin TEXT_FIELDS.length,
        params.get? ((i : Nat) + 1) =
          some (TEXT_FIELDS.get i,
            queryGet (searchInit kwargs) (TEXT_FIELDS.get i) (some (Kw.str "")))) ∧
      params.countP (fun q => q.1 == "_courts") = COURTS_courts.length ∧
      params.countP (fun q => q.1 == "_tribunals") = COURTS_tribunals.length ∧
      params.countP (fun q => q.1 == "courts") =
        (COURTS_courts.filter (fun c => cids.contains c.1)).length ∧
      params.countP (fun q => q.1 == "tribunals") =
        (COURTS_tribunals.filter (fun c => tids.contains c.1)).length ∧
      params.length = 1 + TEXT_FIELDS.length + COURTS_courts.length
        + COURTS_tribunals.length
        + (COURTS_courts.filter (fun c => cids.contains c.1)).length
        + (COURTS_tribunals.filter (fun c => tids.contains c.1)).length := by
  obtain ⟨cids, tids, hc, ht, hp⟩ := build_query_shape kwargs params h
  subst hp
  refine ⟨cids, tids, hc, ht, rfl, ?_, ?_, ?_, ?_, ?_, ?_⟩
  · intro i
    have hi := i.isLt
    rw [List.get?_append (by simp only [List.length_cons, List.length_map]; omega)]
    rw [List.get?_cons_succ, List.get?_map, List.get?_eq_get hi]
    rfl
  · simp only [List.countP_cons, List.countP_append]
    rw [countP_key_map_fields _ _ TEXT_FIELDS (by decide),
      courtsLoop_count_flag "courts" cids "_courts" rfl (by decide),
      courtsLoop_count_other "tribunals" tids "_courts" (by decide) (by decide)]
    decide
  · simp only [List.countP_cons, List.countP_append]
    rw [countP_key_map_fields _ _ TEXT_FIELDS (by decide),
      courtsLoop_count_other "courts" cids "_tribunals" (by decide) (by decide),
      courtsLoop_count_flag "tribunals" tids "_tribunals" rfl (by decide)]
    decide
  · simp only [List.countP_cons, List.countP_append]
    rw [countP_key_map_fields _ _ TEXT_FIELDS (by decide),
      courtsLoop_count_val "courts" cids "courts" rfl (by decide),
      courtsLoop_count_other "tribunals" tids "courts" (by decide) (by decide)]
    simp
  · simp only [List.countP_cons, List.countP_append]
    rw [countP_key_map_fields _ _ TEXT_FIELDS (by decide),
      courtsLoop_count_other "courts" cids "tribunals" (by decide) (by decide),
      courtsLoop_count_val "tribunals" tids "tribunals" rfl (by decide)]
    simp
  · simp only [List.length_cons, List.length_append, List.length_map]
    rw [courtsLoop_length, courtsLoop_length]
    have h11 : TEXT_FIELDS.length = 11 := rfl
    rw [h11]
    omega

/-- Counterexample to C5 as stated: with identical category sizes, selecting
no ordinal gives 39 parameters while selecting ordinal 1 of the courts gives
40 — the total is not independent of which ordinals are selected. -/
theorem claim_C5_counterexample :
    (build_query (searchInit [])).map List.length = Except.ok 39 ∧
    (build_query (searchInit [("courts", Kw.ints [1])])).map List.length =
      Except.ok 40 ∧
    (39 : Nat) ≠ 40 :=
  ⟨rfl, rfl, by decide⟩

/-- Witness for C5 at the empty request. -/
theorem claim_C5_witness :
    build_query (searchInit []) = Except.ok builtEmpty ∧ builtEmpty.length = 39 := by
  refine ⟨rfl, ?_⟩
  obtain ⟨cids, tids, h1, h2, h3, h4, h5, h6, h7, h8, h9⟩ :=
    claim_C5 [] builtEmpty rfl
  have c7 : builtEmpty.countP (fun q => q.1 == "courts") = 0 := rfl
  have c8 : builtEmpty.countP (fun q => q.1 == "tribunals") = 0 := rfl
  rw [c7] at h7
  rw [c8] at h8
  rw [h9, ← h7, ← h8]
  rfl

/-- C7 (amended): a recognized text field that is unset in the request is
emitted at its fixed position with value Python `None` — not the empty
string — because `__init__` stores every field key, so the empty-string
default of the `get` call in `build_query` never applies. -/
theorem claim_C7 (kwargs : List (String × Kw)) (f : String)
    (i : Fin TEXT_FIELDS.length) (hf : TEXT_FIELDS.get i = f)
    (hunset : kwargs.lookup f = none) (params : List Param)
    (h : build_query (searchInit kwargs) = Except.ok params) :
    params.get? ((i : Nat) + 1) = some (f, none) := by
  obtain ⟨cids, tids, hc, ht, hp⟩ := build_query_shape kwargs params h
  subst hp
  have hi := i.isLt
  have hmem : f ∈ TEXT_FIELDS ++ COURTS_FIELDS := by
    rw [← hf]
    exact List.mem_append_left _ (List.get_mem _ _ _)
  have hq : queryGet (searchInit kwargs) f (some (Kw.str "")) = none := by
    rw [queryGet.eq_def, searchInit_lookup kwargs f hmem, hunset]
  rw [List.get?_append (by simp only [List.length_cons, List.length_map]; omega)]
  rw [List.get?_cons_succ, List.get?_map, List.get?_eq_get hi, hf]
  show some (f, queryGet (searchInit kwargs) f (some (Kw.str ""))) = some (f, none)
  rw [hq]

/-- Counterexample to C7 as stated: in an empty request the `body` field is
emitted with Python `None` as its value, not the empty string. -/
theorem claim_C7_counterexample :
    (build_query (searchInit [])).map (fun l => l.get? 1) =
      Except.ok (some ("body", (none : Option Kw))) ∧
    (("body", (none : Option Kw)) : Param) ≠ ("body", some (Kw.str "")) :=
  ⟨rfl, by decide⟩

/-- Witness for C7 at the empty request and the `body` field. -/
theorem claim_C7_witness : builtEmpty.get? 1 = some ("body", none) := by
  have h := claim_C7 [] "body" ⟨0, by decide⟩ rfl rfl builtEmpty rfl
  simpa using h

/-- C6 (code evidence): a non-200 status on the initial page-0 fetch does
NOT raise `CaseLawException`; the fetch happens, nothing is yielded, and the
run dies with `UnboundLocalError` on `n_results` because the code falls
through to the `n_pages` computation without the guard's else branch.  The
function's own docstring promises `CaseLawException` here, so this is a bug
in the code. -/
theorem claim_C6 (net : List Param → Response) (soupOf : String → Node)
    (kwargs : List (String × Kw)) (params : List Param)
    (hb : build_query (searchInit kwargs) = Except.ok params)
    (hs : (net params).status_code ≠ 200) :
    resultsRun net soupOf kwargs =
      { events := [Ev.fetchEv params], yielded := [],
        outcome := some (PyErr.unboundLocal "n_results") } ∧
    ∀ msg, (resultsRun net soupOf kwargs).outcome ≠ some (PyErr.caseLaw msg) := by
  have hrun : resultsRun net soupOf kwargs =
      { events := [Ev.fetchEv params], yielded := [],
        outcome := some (PyErr.unboundLocal "n_results") } := by
    rw [resultsRun.eq_def]
    split
    · next e he => rw [hb] at he; cases he
    · next p' hp' =>
        rw [hb] at hp'
        cases hp'
        rw [if_neg hs]
  refine ⟨hrun, ?_⟩
  intro msg
  rw [hrun]
  simp

/-- Witness for C6: a network stub returning status 500 on every request. -/
theorem claim_C6_witness :
    resultsRun (fun _ => ⟨500, "x"⟩) (fun _ => Node.text "") [] =
      { events := [Ev.fetchEv builtEmpty], yielded := [],
        outcome := some (PyErr.unboundLocal "n_results") } :=
  (claim_C6 (fun _ => ⟨500, "x"⟩) (fun _ => Node.text "") [] builtEmpty rfl
    (by decide)).1

theorem pagerLoop_spec (net : List Param → Response) (soupOf : String → Node) :
    ∀ (pages : List Nat) (a : Param) (tail : List Param) (run : PagerRun),
      (∀ p ∈ pages,
        (net (("page", some (Kw.str (toString p))) :: tail)).status_code = 200) →
      (∀ p ∈ pages, ∃ nr,
        scrape_results
          (soupOf (net (("page", some (Kw.str (toString p))) :: tail)).text) =
          Except.ok nr) →
      ∃ ys : List (Option DecisionRec),
        pagerLoop net soupOf pages (a :: tail) run =
          { events := run.events ++ pages.bind (fun p =>
              [Ev.pauseEv SEARCH_PAUSE_SECONDS,
               Ev.fetchEv (("page", some (Kw.str (toString p))) :: tail)]),
            yielded := run.yielded ++ ys,
            outcome := run.outcome } := by
  intro pages
  induction pages with
  | nil =>
      intro a tail run h1 h2
      exact ⟨[], by simp [pagerLoop]⟩
  | cons p rest ih =>
      intro a tail run h1 h2
      have hst := h1 p (List.mem_cons_self p rest)
      obtain ⟨⟨np, rs⟩, hsc⟩ := h2 p (List.mem_cons_self p rest)
      rw [pagerLoop]
      simp only [List.set_cons_zero]
      rw [if_pos hst]
      split
      · next e heq => rw [hsc] at heq; cases heq
      · next n2 rs2 heq =>
          rw [hsc] at heq
          cases heq
          obtain ⟨ys, hys⟩ := ih ("page", some (Kw.str (toString p))) tail
            { events := run.events ++
                [Ev.pauseEv SEARCH_PAUSE_SECONDS,
                 Ev.fetchEv (("page", some (Kw.str (toString p))) :: tail)],
              yielded := run.yielded ++ rs, outcome := run.outcome }
            (fun q hq => h1 q (List.mem_cons_of_mem p hq))
            (fun q hq => h2 q (List.mem_cons_of_mem p hq))
          refine ⟨rs ++ ys, ?_⟩
          rw [hys]
          simp [List.append_assoc]

/-- C8: with a positive total T on page 0 and all fetches succeeding, the
pager performs the initial fetch and then, for each page index 1 ..
ceil(T/20) - 1 in increasing order, one pause followed by one fetch with
that page index written into the page parameter; the run completes without
error having yielded page 0's rows first.  `(T-1)/20 + 1` is exactly
`ceil(T/20)`. -/
theorem claim_C8 (net : List Param → Response) (soupOf : String → Node)
    (kwargs : List (String × Kw)) (params : List Param) (T : Nat)
    (rows : List (Option DecisionRec))
    (hb : build_query (searchInit kwargs) = Except.ok params)
    (hT : 0 < T)
    (h0 : (net params).status_code = 200)
    (hs0 : scrape_results (soupOf (net params).text) = Except.ok (T, rows))
    (hok : ∀ p, 1 ≤ p → p ≤ (T - 1) / PAGE_SIZE →
      (net (params.set 0 ("page", some (Kw.str (toString p))))).status_code = 200 ∧
      ∃ nr, scrape_results
          (soupOf (net (params.set 0 ("page", some (Kw.str (toString p))))).text) =
          Except.ok nr) :
    ((T - 1) / PAGE_SIZE + 1 = (T + PAGE_SIZE - 1) / PAGE_SIZE) ∧
    ∃ ys, resultsRun net soupOf kwargs =
      { events := Ev.fetchEv params :: (List.range' 1 ((T - 1) / PAGE_SIZE)).bind
          (fun p => [Ev.pauseEv SEARCH_PAUSE_SECONDS,
            Ev.fetchEv (params.set 0 ("page", some (Kw.str (toString p))))]),
        yielded := rows ++ ys,
        outcome := none } := by
  constructor
  · show (T - 1) / 20 + 1 = (T + 20 - 1) / 20
    rw [← Nat.add_div_right (T - 1) (by norm_num : 0 < 20)]
    congr 1
    omega
  · obtain ⟨cids, tids, hcq, htq, hp⟩ := build_query_shape kwargs params hb
    rw [List.cons_append] at hp
    rw [resultsRun.eq_def]
    split
    · next e he => rw [hb] at he; cases he
    · next p' hp' =>
        rw [hb] at hp'
        cases hp'
        rw [if_pos h0]
        split
        · next e he => rw [hs0] at he; cases he
        · next nres results hsc =>
            rw [hs0] at hsc
            cases hsc
            rw [if_neg (by omega : ¬ T = 0)]
            simp only [Nat.add_sub_cancel]
            rw [hp]
            simp only [List.set_cons_zero]
            obtain ⟨ys, hys⟩ := pagerLoop_spec net soupOf
              (List.range' 1 ((T - 1) / PAGE_SIZE)) ("page", some (Kw.str ""))
              (TEXT_FIELDS.map (fun f =>
                  (f, queryGet (searchInit kwargs) f (some (Kw.str ""))))
                ++ (courtsLoop "courts" cids COURTS_courts
                    ++ courtsLoop "tribunals" tids COURTS_tribunals))
              { events := [Ev.fetchEv (("page", some (Kw.str "")) ::
                  (TEXT_FIELDS.map (fun f =>
                      (f, queryGet (searchInit kwargs) f (some (Kw.str ""))))
                    ++ (courtsLoop "courts" cids COURTS_courts
                        ++ courtsLoop "tribunals" tids COURTS_tribunals)))],
                yielded := rows, outcome := none }
              (fun q hq => by
                have hm := List.mem_range'_1.mp hq
                have := (hok q hm.1 (by omega)).1
                rw [hp] at this
                simpa [List.set_cons_zero] using this)
              (fun q hq => by
                have hm := List.mem_range'_1.mp hq
                have := (hok q hm.1 (by omega)).2
                rw [hp] at this
                simpa [List.set_cons_zero] using this)
            refine ⟨ys, ?_⟩
            rw [hys]
            simp

/-- Witness for C8: a 1284-match fixture gives 65 pages and exactly 64
additional paused fetches with increasing page indices. -/
theorem claim_C8_witness :
    ∃ ys, resultsRun (fun _ => ⟨200, "x"⟩) (fun _ => okPage) [] =
      { events := Ev.fetchEv builtEmpty :: (List.range' 1 64).bind
          (fun p => [Ev.pauseEv SEARCH_PAUSE_SECONDS,
            Ev.fetchEv (builtEmpty.set 0 ("page", some (Kw.str (toString p))))]),
        yielded := [] ++ ys,
        outcome := none } := by
  have h := claim_C8 (fun _ => ⟨200, "x"⟩) (fun _ => okPage) [] builtEmpty 1284 []
    rfl (by decide) rfl rfl (fun p h1 h2 => ⟨rfl, ⟨(1284, []), rfl⟩⟩)
  exact h.2

/-- C1 (amended): the per-row exception IS caught, but the failed row is not
omitted — `scrape_one_result` returns Python `None` and the list
comprehension keeps it, so the returned list is exactly the row-marker list
mapped through the per-row extractor and its length always EQUALS the number
of row markers (failed rows appear as `None` placeholders). -/
theorem claim_C1 (soup : Node) (n : Nat) (ds : List (Option DecisionRec))
    (h : scrape_results soup = Except.ok (n, ds)) (hn : n ≠ 0) :
    ds = (Node.findAllClass "div" "row result" soup).map scrape_one_result ∧
    ds.length = (Node.findAllClass "div" "row result" soup).length := by
  rw [scrape_results.eq_def] at h
  split at h
  · obtain ⟨h1v, hh1, h⟩ := exceptBind_ok h
    cases hh1
    dsimp only at h
    split at h
    · obtain ⟨u, hu, h2⟩ := exceptBind_ok h
      cases hu
    · split at h
      · cases h
      · split at h
        · cases h
          exact ⟨rfl, by simp⟩
        · next hc =>
            cases h
            exact absurd hn hc
  · obtain ⟨u, hu, h2⟩ := exceptBind_ok h
    cases hu

/-- Counterexample to C1 as stated: on a two-row page whose second row has no
`<h4>` header, the parse returns a TWO-element list containing a `None`
placeholder for the failed row — the row is not omitted and the list is not
shorter than the row count. -/
theorem claim_C1_counterexample :
    scrape_results resultsPage = Except.ok (2, [some caseOneRec, none]) ∧
    (Node.findAllClass "div" "row result" resultsPage).length = 2 ∧
    scrape_one_result (Node.tag "div" [("class", "row result")]
      [Node.tag "span" [] []]) = none :=
  ⟨rfl, rfl, rfl⟩

/-- Witness for C1 at the two-row fixture page. -/
theorem claim_C1_witness :
    [some caseOneRec, none] =
      (Node.findAllClass "div" "row result" resultsPage).map scrape_one_result ∧
    ([some caseOneRec, (none : Option DecisionRec)]).length =
      (Node.findAllClass "div" "row result" resultsPage).length :=
  claim_C1 resultsPage 2 [some caseOneRec, none] rfl (by decide)

theorem pyBind_ok {α β : Type} (a : α) (f : α → Except PyErr β) :
    (Except.ok a >>= f) = f a := rfl

theorem pyBind_error {α β : Type} (e : PyErr) (f : α → Except PyErr β) :
    ((Except.error e : Except PyErr α) >>= f) = Except.error e := rfl

theorem pyPure_bind {α β : Type} (a : α) (f : α → Except PyErr β) :
    ((pure a : Except PyErr α) >>= f) = f a := rfl

theorem lookup_dictSet_self {α β : Type} [DecidableEq α] [BEq α] [LawfulBEq α]
    (d : List (α × β)) (k : α) (v : β) :
    (dictSet d k v).lookup k = some v := by
  induction d with
  | nil => simp [dictSet, List.lookup]
  | cons kv rest ih =>
      by_cases h : kv.1 = k
      · simp [dictSet, h, List.lookup]
      · simp [dictSet, h, List.lookup, beq_eq_false_iff_ne.mpr (Ne.symm h), ih]

theorem lookup_dictSet_ne {α β : Type} [DecidableEq α] [BEq α] [LawfulBEq α]
    (d : List (α × β)) (k k' : α) (v : β) (h : k' ≠ k) :
    (dictSet d k v).lookup k' = d.lookup k' := by
  induction d with
  | nil => simp [dictSet, List.lookup, beq_eq_false_iff_ne.mpr h]
  | cons kv rest ih =>
      by_cases hk : kv.1 = k
      · subst hk
        simp [dictSet, List.lookup, beq_eq_false_iff_ne.mpr h]
      · by_cases hk' : k' = kv.1
        · subst hk'
          simp [dictSet, hk, List.lookup]
        · simp [dictSet, hk, List.lookup, beq_eq_false_iff_ne.mpr hk', ih]

theorem lookup_dictPop_ne {α β : Type} [DecidableEq α] [BEq α] [LawfulBEq α]
    (d : List (α × β)) (k k' : α) (h : k' ≠ k) :
    (dictPop d k).lookup k' = d.lookup k' := by
  induction d with
  | nil => simp [dictPop]
  | cons kv rest ih =>
      by_cases hk : kv.1 = k
      · subst hk
        simp [dictPop, List.lookup, beq_eq_false_iff_ne.mpr h]
      · by_cases hk' : k' = kv.1
        · subst hk'
          simp [dictPop, hk, List.lookup]
        · simp [dictPop, hk, List.lookup, beq_eq_false_iff_ne.mpr hk', ih]

theorem mem_dictSet {α β : Type} [DecidableEq α] (d : List (α × β)) (k : α) (v : β) :
    ∀ kv ∈ dictSet d k v, kv = (k, v) ∨ kv ∈ d := by
  induction d with
  | nil => simp [dictSet]
  | cons kv0 rest ih =>
      intro kv hkv
      by_cases h : kv0.1 = k
      · simp only [dictSet, h, if_true, ite_true, List.mem_cons] at hkv
        rcases hkv with h1 | h1
        · exact Or.inl h1
        · exact Or.inr (List.mem_cons_of_mem _ h1)
      · simp only [dictSet, h, if_false, ite_false, List.mem_cons] at hkv
        rcases hkv with h1 | h1
        · exact Or.inr (h1 ▸ List.mem_cons_self _ _)
        · rcases ih kv h1 with h2 | h2
          · exact Or.inl h2
          · exact Or.inr (List.mem_cons_of_mem _ h2)

theorem mem_dictPop {α β : Type} [DecidableEq α] (d : List (α × β)) (k : α) :
    ∀ kv ∈ dictPop d k, kv ∈ d := by
  induction d with
  | nil => simp [dictPop]
  | cons kv0 rest ih =>
      intro kv hkv
      by_cases h : kv0.1 = k
      · simp only [dictPop, h, if_true, ite_true] at hkv
        exact List.mem_cons_of_mem _ hkv
      · simp only [dictPop, h, if_false, ite_false, List.mem_cons] at hkv
        rcases hkv with h1 | h1
        · exact h1 ▸ List.mem_cons_self _ _
        · exact List.mem_cons_of_mem _ (ih kv h1)

theorem keys_dictSet {α β : Type} [DecidableEq α] (d : List (α × β)) (k : α) (v : β) :
    (dictSet d k v).map Prod.fst =
      if k ∈ d.map Prod.fst then d.map Prod.fst else d.map Prod.fst ++ [k] := by
  induction d with
  | nil => simp [dictSet]
  | cons kv0 rest ih =>
      by_cases h : kv0.1 = k
      · simp [dictSet, h]
      · have hne : ¬ k = kv0.1 := fun hx => h hx.symm
        by_cases hmem : k ∈ rest.map Prod.fst <;>
          simp [dictSet, h, ih, hmem, hne]

theorem nodup_keys_dictSet {α β : Type} [DecidableEq α] (d : List (α × β)) (k : α) (v : β)
    (h : (d.map Prod.fst).Nodup) : ((dictSet d k v).map Prod.fst).Nodup := by
  rw [keys_dictSet]
  by_cases hmem : k ∈ d.map Prod.fst
  · simpa [hmem] using h
  · simp only [hmem, if_false, ite_false]
    rw [List.nodup_append]
    exact ⟨h, List.nodup_singleton k, by simpa using hmem⟩

theorem nodup_keys_dictPop {α β : Type} [DecidableEq α] (d : List (α × β)) (k : α)
    (h : (d.map Prod.fst).Nodup) : ((dictPop d k).map Prod.fst).Nodup := by
  induction d with
  | nil => simpa [dictPop] using h
  | cons kv0 rest ih =>
      simp only [List.map_cons, List.nodup_cons] at h
      by_cases hk : kv0.1 = k
      · simpa [dictPop, hk] using h.2
      · simp only [dictPop, hk, if_false, ite_false, List.map_cons, List.nodup_cons]
        refine ⟨fun hmem => h.1 ?_, ih h.2⟩
        obtain ⟨kv, hkv, hfst⟩ := List.mem_map.mp hmem
        exact List.mem_map.mpr ⟨kv, mem_dictPop rest k kv hkv, hfst⟩

theorem lookup_eq_none_of_not_mem {α β : Type} [BEq α] [LawfulBEq α]
    (d : List (α × β)) (f : α) (h : ¬ f ∈ d.map Prod.fst) : d.lookup f = none := by
  induction d with
  | nil => rfl
  | cons kv rest ih =>
      simp only [List.map_cons, List.mem_cons, not_or] at h
      simp [List.lookup, beq_eq_false_iff_ne.mpr h.1, ih h.2]

theorem mem_of_lookup_eq_some {α β : Type} [BEq α] [LawfulBEq α]
    (d : List (α × β)) (f : α) (v : β) (h : d.lookup f = some v) : (f, v) ∈ d := by
  induction d with
  | nil => cases h
  | cons kv rest ih =>
      rw [List.lookup] at h
      by_cases hf : f == kv.1
      · rw [hf] at h
        cases h
        have : f = kv.1 := eq_of_beq hf
        subst this
        exact List.mem_cons_self _ _
      · rw [Bool.eq_false_iff.mpr hf] at h
        exact List.mem_cons_of_mem _ (ih h)

theorem lookup_isSome_of_mem_keys {α β : Type} [BEq α] [LawfulBEq α]
    (d : List (α × β)) (f : α) (h : f ∈ d.map Prod.fst) : ∃ v, d.lookup f = some v := by
  induction d with
  | nil => cases h
  | cons kv rest ih =>
      by_cases hf : f = kv.1
      · subst hf
        exact ⟨kv.2, by simp [List.lookup]⟩
      · simp only [List.map_cons, List.mem_cons] at h
        rcases h with h | h
        · exact absurd h hf
        · obtain ⟨v, hv⟩ := ih h
          exact ⟨v, by simp [List.lookup, beq_eq_false_iff_ne.mpr hf, hv]⟩

theorem lookup_append_cases {α β : Type} [BEq α] (l1 l2 : List (α × β)) (f : α) :
    (l1 ++ l2).lookup f =
      match l1.lookup f with
      | some v => some v
      | none => l2.lookup f := by
  induction l1 with
  | nil => rfl
  | cons kv rest ih =>
      by_cases hb : (f == kv.1) = true
      · simp [List.lookup, hb]
      · simp only [Bool.not_eq_true] at hb
        simp [List.lookup, hb, ih]

theorem lookup_reverse_of_nodup {α β : Type} [BEq α] [LawfulBEq α]
    (d : List (α × β)) (h : (d.map Prod.fst).Nodup) (f : α) :
    d.reverse.lookup f = d.lookup f := by
  induction d with
  | nil => rfl
  | cons kv rest ih =>
      simp only [List.map_cons, List.nodup_cons] at h
      rw [List.reverse_cons, lookup_append_cases, ih h.2]
      by_cases hf : f = kv.1
      · subst hf
        rw [lookup_eq_none_of_not_mem rest kv.1 (by simpa using h.1)]
        simp [List.lookup]
      · cases hl : rest.lookup f with
        | some v =>
            simp only [List.lookup, beq_eq_false_iff_ne.mpr hf]
            exact hl.symm
        | none =>
            simp only [List.lookup, beq_eq_false_iff_ne.mpr hf]
            exact hl.symm

theorem lookup_foldl_dictSet {α β : Type} [DecidableEq α] [BEq α] [LawfulBEq α]
    (data : List (α × β)) : ∀ (init : List (α × β)) (f : α),
    (data.foldl (fun vals kv => dictSet vals kv.1 kv.2) init).lookup f =
      match data.reverse.lookup f with
      | some v => some v
      | none => init.lookup f := by
  induction data with
  | nil => intro init f; rfl
  | cons kv rest ih =>
      intro init f
      rw [List.foldl_cons, ih]
      rw [List.reverse_cons, lookup_append_cases]
      cases hl : rest.reverse.lookup f with
      | some v => rfl
      | none =>
          by_cases hf : f = kv.1
          · subst hf
            simp [List.lookup, lookup_dictSet_self]
          · simp [List.lookup, beq_eq_false_iff_ne.mpr hf,
              lookup_dictSet_ne init kv.1 f kv.2 hf]

theorem foldlM_total {α β : Type} (f : β → α → Except PyErr β)
    (hf : ∀ b a, ∃ c, f b a = Except.ok c) :
    ∀ (l : List α) (init : β), ∃ r, List.foldlM f init l = Except.ok r := by
  intro l
  induction l with
  | nil => intro init; exact ⟨init, rfl⟩
  | cons a rest ih =>
      intro init
      obtain ⟨c, hc⟩ := hf init a
      obtain ⟨r, hr⟩ := ih c
      exact ⟨r, by rw [List.foldlM_cons, hc, pyBind_ok, hr]⟩

theorem rawKeysMatch_sub (sub : String) :
    ∀ (keys : List (Option String)) (found : List String),
      rawKeysMatch keys sub = Except.ok found →
      ∀ m ∈ found, strContains m sub = true ∧ some m ∈ keys := by
  intro keys
  induction keys with
  | nil =>
      intro found h m hm
      cases h
      cases hm
  | cons k rest ih =>
      intro found h m hm
      cases k with
      | none => cases h
      | some s =>
          simp only [rawKeysMatch] at h
          obtain ⟨ms, hms, h2⟩ := exceptBind_ok h
          cases h2
          by_cases hc : strContains s sub
          · rw [if_pos hc] at hm
            rcases List.mem_cons.mp hm with h3 | h3
            · subst h3
              exact ⟨hc, List.mem_cons_self _ _⟩
            · obtain ⟨h4, h5⟩ := ih ms hms m h3
              exact ⟨h4, List.mem_cons_of_mem _ h5⟩
          · rw [if_neg hc] at hm
            obtain ⟨h4, h5⟩ := ih ms hms m hm
            exact ⟨h4, List.mem_cons_of_mem _ h5⟩

theorem rawKeysMatch_total (sub : String) :
    ∀ keys : List (Option String), (∀ k ∈ keys, k ≠ none) →
      ∃ found, rawKeysMatch keys sub = Except.ok found := by
  intro keys
  induction keys with
  | nil => intro h; exact ⟨[], rfl⟩
  | cons k rest ih =>
      intro h
      cases k with
      | none => exact absurd rfl (h none (List.mem_cons_self _ _))
      | some s =>
          obtain ⟨ms, hms⟩ := ih (fun k hk => h k (List.mem_cons_of_mem _ hk))
          refine ⟨if strContains s sub then s :: ms else ms, ?_⟩
          simp only [rawKeysMatch]
          rw [hms, pyBind_ok]

theorem rawKeysMatch_none_key (sub : String) :
    ∀ keys : List (Option String), none ∈ keys →
      rawKeysMatch keys sub = Except.error PyErr.typeError := by
  intro keys
  induction keys with
  | nil => intro h; cases h
  | cons k rest ih =>
      intro h
      cases k with
      | none => rfl
      | some s =>
          have h2 : none ∈ rest := by
            rcases List.mem_cons.mp h with h3 | h3
            · cases h3
            · exact h3
          simp only [rawKeysMatch]
          rw [ih h2, pyBind_error]

theorem rawKeysMatch_no_match (sub : String) :
    ∀ keys : List (Option String),
      (∀ k ∈ keys, ∀ s, k = some s → ¬ strContains s sub) →
      (∀ k ∈ keys, k ≠ none) →
      rawKeysMatch keys sub = Except.ok [] := by
  intro keys
  induction keys with
  | nil => intro h1 h2; rfl
  | cons k rest ih =>
      intro h1 h2
      cases k with
      | none => exact absurd rfl (h2 none (List.mem_cons_self _ _))
      | some s =>
          have hc : ¬ strContains s sub := h1 (some s) (List.mem_cons_self _ _) s rfl
          simp only [rawKeysMatch]
          rw [ih (fun k hk t ht => h1 k (List.mem_cons_of_mem _ hk) t ht)
            (fun k hk => h2 k (List.mem_cons_of_mem _ hk)), pyBind_ok]
          rw [if_neg hc]

theorem find_value_cases (raw : RawDict) (sub : String) (v : DVal)
    (h : find_value raw sub = Except.ok v) :
    v = DVal.dstr "" ∨ ∃ m, (some m, v) ∈ raw := by
  rw [find_value] at h
  obtain ⟨found, hfound, h2⟩ := exceptBind_ok h
  cases found with
  | nil =>
      cases h2
      exact Or.inl rfl
  | cons m rest =>
      have hmem := (rawKeysMatch_sub sub _ _ hfound m (List.mem_cons_self _ _)).2
      obtain ⟨v', hv'⟩ := lookup_isSome_of_mem_keys raw (some m) hmem
      have h2' : Except.ok ((List.lookup (some m) raw).getD DVal.dnone) =
          Except.ok v := h2
      rw [hv'] at h2'
      cases h2'
      exact Or.inr ⟨m, mem_of_lookup_eq_some raw (some m) v' hv'⟩

theorem find_value_total (raw : RawDict) (sub : String)
    (hk : ∀ k ∈ raw.map Prod.fst, k ≠ none) :
    ∃ v, find_value raw sub = Except.ok v := by
  obtain ⟨found, hfound⟩ := rawKeysMatch_total sub _ hk
  rw [find_value]
  rw [hfound, pyBind_ok]
  cases found with
  | nil => exact ⟨DVal.dstr "", rfl⟩
  | cons m rest => exact ⟨_, rfl⟩

theorem find_value_error_of_none_key (raw : RawDict) (sub : String)
    (hk : none ∈ raw.map Prod.fst) :
    find_value raw sub = Except.error PyErr.typeError := by
  rw [find_value]
  rw [rawKeysMatch_none_key sub _ hk, pyBind_error]

theorem find_value_empty_of_no_match (raw : RawDict) (sub : String)
    (hnm : ∀ k ∈ raw.map Prod.fst, ∀ s, k = some s → ¬ strContains s sub)
    (hk : ∀ k ∈ raw.map Prod.fst, k ≠ none) :
    find_value raw sub = Except.ok (DVal.dstr "") := by
  rw [find_value]
  rw [rawKeysMatch_no_match sub _ hnm hk, pyBind_ok]

theorem find_fold_spec (raw : RawDict) :
    ∀ (subs : List (String × String)) (init vals : List (String × DVal)),
      subs.foldlM (fun vals fs => do
          let v ← find_value raw fs.2
          Except.ok (dictSet vals fs.1 v)) init = Except.ok vals →
      ((∀ f, ¬ f ∈ subs.map Prod.fst → vals.lookup f = init.lookup f) ∧
       ((subs.map Prod.fst).Nodup →
         ∀ fs ∈ subs, ∃ v, find_value raw fs.2 = Except.ok v ∧
           vals.lookup fs.1 = some v) ∧
       ((init.map Prod.fst).Nodup → (vals.map Prod.fst).Nodup)) := by
  intro subs
  induction subs with
  | nil =>
      intro init vals h
      cases h
      exact ⟨fun f _ => rfl, fun _ fs hfs => absurd hfs (List.not_mem_nil fs),
        fun h => h⟩
  | cons fs0 rest ih =>
      intro init vals h
      rw [List.foldlM_cons] at h
      obtain ⟨b0, hb0, hrest⟩ := exceptBind_ok h
      obtain ⟨v0, hv0, hset⟩ := exceptBind_ok hb0
      cases hset
      obtain ⟨ihPres, ihVal, ihNodup⟩ := ih (dictSet init fs0.1 v0) vals hrest
      refine ⟨?_, ?_, ?_⟩
      · intro f hf
        simp only [List.map_cons, List.mem_cons, not_or] at hf
        rw [ihPres f hf.2, lookup_dictSet_ne init fs0.1 f v0 hf.1]
      · intro hnd fs hfs
        simp only [List.map_cons, List.nodup_cons] at hnd
        rcases List.mem_cons.mp hfs with h3 | h3
        · subst h3
          refine ⟨v0, hv0, ?_⟩
          rw [ihPres fs.1 hnd.1, lookup_dictSet_self]
        · exact ihVal hnd.2 fs h3
      · intro hnd
        exact ihNodup (nodup_keys_dictSet init fs0.1 v0 hnd)

theorem step_fold_spec (g : DVal → Except PyErr DVal) :
    ∀ (fields : List String) (init vals : List (String × DVal)),
      fields.foldlM (fun vals f => do
          let v ← g (dGet vals f)
          Except.ok (dictSet vals f v)) init = Except.ok vals →
      ((∀ f, ¬ f ∈ fields → vals.lookup f = init.lookup f) ∧
       (fields.Nodup →
         ∀ f ∈ fields, ∃ v, g (dGet init f) = Except.ok v ∧
           vals.lookup f = some v) ∧
       ((init.map Prod.fst).Nodup → (vals.map Prod.fst).Nodup)) := by
  intro fields
  induction fields with
  | nil =>
      intro init vals h
      cases h
      exact ⟨fun f _ => rfl, fun _ f hf => absurd hf (List.not_mem_nil f),
        fun h => h⟩
  | cons f0 rest ih =>
      intro init vals h
      rw [List.foldlM_cons] at h
      obtain ⟨b0, hb0, hrest⟩ := exceptBind_ok h
      obtain ⟨v0, hv0, hset⟩ := exceptBind_ok hb0
      cases hset
      obtain ⟨ihPres, ihVal, ihNodup⟩ := ih (dictSet init f0 v0) vals hrest
      refine ⟨?_, ?_, ?_⟩
      · intro f hf
        simp only [List.mem_cons, not_or] at hf
        rw [ihPres f hf.2, lookup_dictSet_ne init f0 f v0 hf.1]
      · intro hnd f hf
        simp only [List.nodup_cons] at hnd
        rcases List.mem_cons.mp hf with h3 | h3
        · subst h3
          refine ⟨v0, hv0, ?_⟩
          rw [ihPres f hnd.1, lookup_dictSet_self]
        · obtain ⟨v, hv, hl⟩ := ihVal hnd.2 f h3
          refine ⟨v, ?_, hl⟩
          rw [← hv]
          congr 1
          rw [dGet, dGet, lookup_dictSet_ne init f0 f v0 (fun hx => hnd.1 (hx ▸ h3))]
      · intro hnd
        exact ihNodup (nodup_keys_dictSet init f0 v0 hnd)

theorem foldlM_preserve {α γ : Type} (P : γ → Prop)
    (step : List γ → α → Except PyErr (List γ))
    (hstep : ∀ acc x out, step acc x = Except.ok out →
      (∀ kv ∈ acc, P kv) → ∀ kv ∈ out, P kv) :
    ∀ (l : List α) (acc out : List γ), List.foldlM step acc l = Except.ok out →
      (∀ kv ∈ acc, P kv) → ∀ kv ∈ out, P kv := by
  intro l
  induction l with
  | nil =>
      intro acc out h hacc
      cases h
      exact hacc
  | cons a rest ih =>
      intro acc out h hacc
      rw [List.foldlM_cons] at h
      obtain ⟨b, hb, hrest⟩ := exceptBind_ok h
      exact ih b out hrest (hstep acc a b hb hacc)

theorem foldl_preserve {α γ : Type} (P : γ → Prop) (step : List γ → α → List γ)
    (hstep : ∀ acc x, (∀ kv ∈ acc, P kv) → ∀ kv ∈ step acc x, P kv) :
    ∀ (l : List α) (acc : List γ), (∀ kv ∈ acc, P kv) →
      ∀ kv ∈ l.foldl step acc, P kv := by
  intro l
  induction l with
  | nil => intro acc hacc; exact hacc
  | cons a rest ih =>
      intro acc hacc
      rw [List.foldl_cons]
      exact ih (step acc a) (hstep acc a hacc)

theorem newBuildRaw_quality (soup : Node) (raw : RawDict)
    (h : newBuildRaw soup = Except.ok raw) :
    ∀ kv ∈ raw, kv.2 ≠ DVal.dnone := by
  rw [newBuildRaw] at h
  refine foldlM_preserve (fun kv => kv.2 ≠ DVal.dnone) _ ?_ _ _ _ h (by simp)
  intro acc x out hs hacc kv hkv
  cases hfind : x.2.find? (fun s => s.nameOf = some "dd") with
  | none =>
      rw [hfind] at hs
      obtain ⟨y, hy, h2⟩ := exceptBind_ok hs
      cases hy
  | some dd =>
      rw [hfind] at hs
      obtain ⟨y, hy, h2⟩ := exceptBind_ok hs
      cases hy
      have h2' : Except.ok (dictSet acc (x.1.stringOf)
          (if (Node.findAll "p" dd).isEmpty then DVal.dstr (stringsOf dd)
           else DVal.dlist ((Node.findAll "p" dd).map stringsOf))) =
          Except.ok out := h2
      cases h2'
      rcases mem_dictSet _ _ _ kv hkv with h1 | h1
      · subst h1
        dsimp only
        split <;> simp
      · exact hacc kv h1

theorem oldBuildRaw_quality (soup : Node) :
    ∀ kv ∈ oldBuildRaw soup, (∃ s, kv.1 = some s) ∧ ∃ t, kv.2 = DVal.dstr t := by
  rw [oldBuildRaw]
  refine foldl_preserve
    (fun kv : Option String × DVal => (∃ s, kv.1 = some s) ∧ ∃ t, kv.2 = DVal.dstr t)
    _ ?_ _ _ (by simp)
  intro acc x hacc kv hkv
  revert hkv
  split
  · intro hkv
    rcases mem_dictSet _ _ _ kv hkv with h1 | h1
    · subst h1
      exact ⟨⟨_, rfl⟩, ⟨_, rfl⟩⟩
    · exact hacc kv h1
  · intro hkv
    exact hacc kv hkv

theorem ensure_list_ok (v : DVal) (h : v ≠ DVal.dnone) :
    ∃ l, ensure_list v = Except.ok (DVal.dlist l) := by
  cases v with
  | dnone => exact absurd rfl h
  | dstr s => exact ⟨_, rfl⟩
  | dlist l => exact ⟨l, rfl⟩

theorem find_fold_error (raw : RawDict) (hk : none ∈ raw.map Prod.fst) :
    ∀ (l : List (String × String)) (init : List (String × DVal)), l ≠ [] →
      l.foldlM (fun vals fs => do
          let v ← find_value raw fs.2
          Except.ok (dictSet vals fs.1 v)) init = Except.error PyErr.typeError := by
  intro l init hne
  cases l with
  | nil => exact absurd rfl hne
  | cons fs0 rest =>
      rw [List.foldlM_cons]
      have h1 : (do
          let v ← find_value raw fs0.2
          Except.ok (dictSet init fs0.1 v) : Except PyErr _) =
          Except.error PyErr.typeError := by
        rw [find_value_error_of_none_key raw fs0.2 hk, pyBind_error]
      rw [h1, pyBind_error]

theorem new_scrape_metadata_error_of_empty (soup : Node) (raw : RawDict)
    (hraw : newBuildRaw soup = Except.ok raw)
    (hks : ∀ k ∈ raw.map Prod.fst, k ≠ none)
    (hdec : find_value raw "Decision:" = Except.ok (DVal.dstr "")) :
    ∃ e, new_scrape_metadata soup = Except.error e := by
  have hfvq : ∀ sub v, find_value raw sub = Except.ok v → v ≠ DVal.dnone := by
    intro sub v hv
    rcases find_value_cases raw sub v hv with h1 | ⟨m, hm⟩
    · subst h1; simp
    · exact newBuildRaw_quality soup raw hraw (some m, v) hm
  have hstep : ∀ (vals : List (String × DVal)) (fs : String × String),
      ∃ c, (do
        let v ← find_value raw fs.2
        Except.ok (dictSet vals fs.1 v) : Except PyErr _) = Except.ok c := by
    intro vals fs
    obtain ⟨v, hv⟩ := find_value_total raw fs.2 hks
    exact ⟨dictSet vals fs.1 v, by rw [hv, pyBind_ok]⟩
  obtain ⟨values, hvalues⟩ := foldlM_total _ hstep NEW_SUBSTRINGS []
  obtain ⟨hPres, hVal, hNodup⟩ := find_fold_spec raw NEW_SUBSTRINGS [] values hvalues
  obtain ⟨vd, hvd, hlookd⟩ := hVal (by decide) ("decision", "Decision:") (by decide)
  rw [hdec] at hvd
  cases hvd
  obtain ⟨vc, hvc, hlookc⟩ := hVal (by decide) ("catchwords", "Catchwords") (by decide)
  obtain ⟨vl, hvl, hlookl⟩ := hVal (by decide)
    ("legislationCited", "Legislation Cited") (by decide)
  obtain ⟨vcc, hvcc, hlookcc⟩ := hVal (by decide) ("casesCited", "Cases Cited") (by decide)
  obtain ⟨lc, hlc⟩ := ensure_list_ok vc (hfvq _ _ hvc)
  obtain ⟨ll, hll⟩ := ensure_list_ok vl (hfvq _ _ hvl)
  obtain ⟨lcc, hlcc⟩ := ensure_list_ok vcc (hfvq _ _ hvcc)
  refine ⟨PyErr.indexError, ?_⟩
  rw [new_scrape_metadata]
  rw [hraw, pyBind_ok, hvalues, pyBind_ok]
  rw [List.foldlM_cons]
  have e1 : dGet values "catchwords" = vc := by
    rw [dGet, hlookc]
    rfl
  have s1 : (do
      let v ← ensure_list (dGet values "catchwords")
      Except.ok (dictSet values "catchwords" v) : Except PyErr _) =
      Except.ok (dictSet values "catchwords" (DVal.dlist lc)) := by
    rw [e1, hlc, pyBind_ok]
  rw [s1, pyBind_ok, List.foldlM_cons]
  have e2 : dGet (dictSet values "catchwords" (DVal.dlist lc)) "legislationCited" = vl := by
    rw [dGet, lookup_dictSet_ne values "catchwords" "legislationCited" _ (by decide),
      hlookl]
    rfl
  have s2 : (do
      let v ← ensure_list (dGet (dictSet values "catchwords" (DVal.dlist lc))
        "legislationCited")
      Except.ok (dictSet (dictSet values "catchwords" (DVal.dlist lc))
        "legislationCited" v) : Except PyErr _) =
      Except.ok (dictSet (dictSet values "catchwords" (DVal.dlist lc))
        "legislationCited" (DVal.dlist ll)) := by
    rw [e2, hll, pyBind_ok]
  rw [s2, pyBind_ok, List.foldlM_cons]
  have e3 : dGet (dictSet (dictSet values "catchwords" (DVal.dlist lc))
      "legislationCited" (DVal.dlist ll)) "casesCited" = vcc := by
    rw [dGet, lookup_dictSet_ne _ "legislationCited" "casesCited" _ (by decide),
      lookup_dictSet_ne values "catchwords" "casesCited" _ (by decide), hlookcc]
    rfl
  have s3 : (do
      let v ← ensure_list (dGet (dictSet (dictSet values "catchwords" (DVal.dlist lc))
        "legislationCited" (DVal.dlist ll)) "casesCited")
      Except.ok (dictSet (dictSet (dictSet values "catchwords" (DVal.dlist lc))
        "legislationCited" (DVal.dlist ll)) "casesCited" v) : Except PyErr _) =
      Except.ok (dictSet (dictSet (dictSet values "catchwords" (DVal.dlist lc))
        "legislationCited" (DVal.dlist ll)) "casesCited" (DVal.dlist lcc)) := by
    rw [e3, hlcc, pyBind_ok]
  rw [s3, pyBind_ok, List.foldlM_nil, pyPure_bind]
  have e4 : dGet (dictSet (dictSet (dictSet values "catchwords" (DVal.dlist lc))
      "legislationCited" (DVal.dlist ll)) "casesCited" (DVal.dlist lcc))
      "decision" = DVal.dstr "" := by
    rw [dGet, lookup_dictSet_ne _ "casesCited" "decision" _ (by decide),
      lookup_dictSet_ne _ "legislationCited" "decision" _ (by decide),
      lookup_dictSet_ne values "catchwords" "decision" _ (by decide), hlookd]
    rfl
  rw [e4]
  rw [show pySubscriptZero (DVal.dstr "") = Except.error PyErr.indexError from rfl,
    pyBind_error]

theorem new_scrape_metadata_error_no_decision (soup : Node) (raw : RawDict)
    (hraw : newBuildRaw soup = Except.ok raw)
    (hnone : ∀ k ∈ raw.map Prod.fst, ∀ s, k = some s → ¬ strContains s "Decision:") :
    ∃ e, new_scrape_metadata soup = Except.error e := by
  by_cases hk : none ∈ raw.map Prod.fst
  · refine ⟨PyErr.typeError, ?_⟩
    rw [new_scrape_metadata]
    rw [hraw, pyBind_ok]
    rw [find_fold_error raw hk NEW_SUBSTRINGS [] (by decide), pyBind_error]
  · have hks : ∀ k ∈ raw.map Prod.fst, k ≠ none := fun k hk2 hn => hk (hn ▸ hk2)
    exact new_scrape_metadata_error_of_empty soup raw hraw hks
      (find_value_empty_of_no_match raw "Decision:" hnone hks)

/-- C10: on a new-layout page whose label map has no key containing
`Decision:`, the whole decision scrape fails rather than degrading softly —
`_find_value` falls back to the empty string, indexing it raises, the
exception is caught at the top of `Decision.scrape`, which returns the
failure flag and leaves the record's stored values untouched. -/
theorem claim_C10 (d : DecisionRec) (soup : Node) (raw : RawDict)
    (hlayout : get_scraper soup = Layout.newSc)
    (hraw : newBuildRaw soup = Except.ok raw)
    (hnone : ∀ k ∈ raw.map Prod.fst, ∀ s, k = some s → ¬ strContains s "Decision:") :
    decision_scrape d soup = (false, d) := by
  obtain ⟨e, he⟩ := new_scrape_metadata_error_no_decision soup raw hraw hnone
  have herr : scraper_scrape soup (d.get "uri") (get_scraper soup) =
      Except.error e := by
    rw [hlayout, scraper_scrape]
    rw [he, pyBind_error]
  rw [decision_scrape, herr]

/-- Witness for C10: a new-layout page whose only label is `Catchwords`. -/
theorem claim_C10_witness :
    get_scraper newNoDec = Layout.newSc ∧
    decision_scrape dWithUri newNoDec = (false, dWithUri) := by
  refine ⟨rfl, ?_⟩
  exact claim_C10 dWithUri newNoDec ((newBuildRaw newNoDec).toOption.getD [])
    rfl rfl (by decide)

theorem rawKeysMatch_ok_no_none (sub : String) :
    ∀ (keys : List (Option String)) (found : List String),
      rawKeysMatch keys sub = Except.ok found → ∀ k ∈ keys, k ≠ none := by
  intro keys
  induction keys with
  | nil => intro found h k hk; cases hk
  | cons k0 rest ih =>
      intro found h k hk
      cases k0 with
      | none => cases h
      | some s =>
          simp only [rawKeysMatch] at h
          obtain ⟨ms, hms, h2⟩ := exceptBind_ok h
          rcases List.mem_cons.mp hk with h3 | h3
          · subst h3; simp
          · exact ih ms hms k h3

theorem pySubscriptZero_shape (v w : DVal) (h : pySubscriptZero v = Except.ok w) :
    ∃ s, w = DVal.dstr s := by
  cases v with
  | dnone => cases h
  | dstr s =>
      simp only [pySubscriptZero] at h
      split at h
      · cases h
      · cases h
        exact ⟨_, rfl⟩
  | dlist l =>
      cases l with
      | nil => cases h
      | cons x xs =>
          cases h
          exact ⟨x, rfl⟩

theorem new_catchwords_shape (v : DVal) : ∃ l, new_catchwords v = DVal.dlist l := by
  cases v with
  | dnone => exact ⟨[], rfl⟩
  | dstr s =>
      simp only [new_catchwords]
      split
      · exact ⟨[], rfl⟩
      · exact ⟨_, rfl⟩
  | dlist l =>
      cases l with
      | nil => exact ⟨[], rfl⟩
      | cons x xs => exact ⟨_, rfl⟩

theorem fix_whitespace_shape (v w : DVal) (h : fix_whitespace_d v = Except.ok w) :
    ∃ l, w = DVal.dlist l := by
  cases v with
  | dnone => cases h
  | dstr s => cases h; exact ⟨_, rfl⟩
  | dlist l => cases h; exact ⟨_, rfl⟩

theorem pySplitNewline_shape (v w : DVal) (h : pySplitNewline v = Except.ok w) :
    ∃ l, w = DVal.dlist l := by
  cases v with
  | dnone => cases h
  | dstr s => cases h; exact ⟨_, rfl⟩
  | dlist l => cases h

theorem new_scrape_metadata_ok_spec (soup : Node) (data : List (String × DVal))
    (h : new_scrape_metadata soup = Except.ok data) :
    ((data.map Prod.fst).Nodup) ∧
    (∀ f ∈ FULL_FIELDS, ∃ w, data.lookup f = some w ∧ w ≠ DVal.dnone) ∧
    (∀ raw v, newBuildRaw soup = Except.ok raw →
       find_value raw "Decision:" = Except.ok v →
       ∃ dec, pySubscriptZero v = Except.ok dec ∧
         data.lookup "decision" = some dec) := by
  rw [new_scrape_metadata] at h
  obtain ⟨raw0, hraw0, h⟩ := exceptBind_ok h
  obtain ⟨values, hvalues, h⟩ := exceptBind_ok h
  obtain ⟨values2, hvalues2, h⟩ := exceptBind_ok h
  obtain ⟨dec, hdec, h⟩ := exceptBind_ok h
  obtain ⟨values4, hvalues4, h⟩ := exceptBind_ok h
  obtain ⟨pv, hpv, h⟩ := exceptBind_ok h
  obtain ⟨rv, hrv, h⟩ := exceptBind_ok h
  obtain ⟨jd, hjd, h⟩ := exceptBind_ok h
  cases h
  have hfvq : ∀ sub v, find_value raw0 sub = Except.ok v → v ≠ DVal.dnone := by
    intro sub v hv
    rcases find_value_cases raw0 sub v hv with h1 | ⟨m, hm⟩
    · subst h1; simp
    · exact newBuildRaw_quality soup raw0 hraw0 (some m, v) hm
  obtain ⟨ffP, ffV, ffN⟩ := find_fold_spec raw0 NEW_SUBSTRINGS [] values hvalues
  obtain ⟨efP, efV, efN⟩ := step_fold_spec ensure_list
    ["catchwords", "legislationCited", "casesCited"] values values2 hvalues2
  obtain ⟨xfP, xfV, xfN⟩ := step_fold_spec fix_whitespace_d
    ["legislationCited", "casesCited"] _ values4 hvalues4
  obtain ⟨ds, hds⟩ := pySubscriptZero_shape _ dec hdec
  obtain ⟨pl, hpl⟩ := pySplitNewline_shape _ pv hpv
  obtain ⟨rl, hrl⟩ := pySplitNewline_shape _ rv hrv
  refine ⟨?_, ?_, ?_⟩
  · apply nodup_keys_dictSet
    apply nodup_keys_dictSet
    apply nodup_keys_dictSet
    apply xfN
    apply nodup_keys_dictSet
    apply nodup_keys_dictSet
    apply efN
    apply ffN
    simp
  · intro f hf
    fin_cases hf
    · obtain ⟨w, hw, hl⟩ := ffV (by decide) ("mnc", "Medium Neutral Citation") (by decide)
      refine ⟨w, ?_, hfvq _ _ hw⟩
      rw [lookup_dictSet_ne _ _ _ _ (by decide), lookup_dictSet_ne _ _ _ _ (by decide),
        lookup_dictSet_ne _ _ _ _ (by decide), xfP _ (by decide),
        lookup_dictSet_ne _ _ _ _ (by decide), lookup_dictSet_ne _ _ _ _ (by decide),
        efP _ (by decide), hl]
    · obtain ⟨w, hw, hl⟩ := ffV (by decide) ("hearingDates", "Hearing dates") (by decide)
      refine ⟨w, ?_, hfvq _ _ hw⟩
      rw [lookup_dictSet_ne _ _ _ _ (by decide), lookup_dictSet_ne _ _ _ _ (by decide),
        lookup_dictSet_ne _ _ _ _ (by decide), xfP _ (by decide),
        lookup_dictSet_ne _ _ _ _ (by decide), lookup_dictSet_ne _ _ _ _ (by decide),
        efP _ (by decide), hl]
    · obtain ⟨w, hw, hl⟩ := ffV (by decide) ("dateOfOrders", "Date of orders") (by decide)
      refine ⟨w, ?_, hfvq _ _ hw⟩
      rw [lookup_dictSet_ne _ _ _ _ (by decide), lookup_dictSet_ne _ _ _ _ (by decide),
        lookup_dictSet_ne _ _ _ _ (by decide), xfP _ (by decide),
        lookup_dictSet_ne _ _ _ _ (by decide), lookup_dictSet_ne _ _ _ _ (by decide),
        efP _ (by decide), hl]
    · obtain ⟨w, hw, hl⟩ := ffV (by decide) ("jurisdiction", "Jurisdiction") (by decide)
      refine ⟨w, ?_, hfvq _ _ hw⟩
      rw [lookup_dictSet_ne _ _ _ _ (by decide), lookup_dictSet_ne _ _ _ _ (by decide),
        lookup_dictSet_ne _ _ _ _ (by decide), xfP _ (by decide),
        lookup_dictSet_ne _ _ _ _ (by decide), lookup_dictSet_ne _ _ _ _ (by decide),
        efP _ (by decide), hl]
    · refine ⟨dec, ?_, by rw [hds]; simp⟩
      rw [lookup_dictSet_ne _ _ _ _ (by decide), lookup_dictSet_ne _ _ _ _ (by decide),
        lookup_dictSet_ne _ _ _ _ (by decide), xfP _ (by decide),
        lookup_dictSet_ne _ _ _ _ (by decide), lookup_dictSet_self]
    · obtain ⟨cl, hcl⟩ := new_catchwords_shape
        (dGet (dictSet values2 "decision" dec) "catchwords")
      refine ⟨DVal.dlist cl, ?_, by simp⟩
      rw [lookup_dictSet_ne _ _ _ _ (by decide), lookup_dictSet_ne _ _ _ _ (by decide),
        lookup_dictSet_ne _ _ _ _ (by decide), xfP _ (by decide), ← hcl,
        lookup_dictSet_self]
    · obtain ⟨w, hw, hl⟩ := xfV (by decide) "legislationCited" (by decide)
      obtain ⟨wl, hwl⟩ := fix_whitespace_shape _ w hw
      refine ⟨w, ?_, by rw [hwl]; simp⟩
      rw [lookup_dictSet_ne _ _ _ _ (by decide), lookup_dictSet_ne _ _ _ _ (by decide),
        lookup_dictSet_ne _ _ _ _ (by decide), hl]
    · obtain ⟨w, hw, hl⟩ := xfV (by decide) "casesCited" (by decide)
      obtain ⟨wl, hwl⟩ := fix_whitespace_shape _ w hw
      refine ⟨w, ?_, by rw [hwl]; simp⟩
      rw [lookup_dictSet_ne _ _ _ _ (by decide), lookup_dictSet_ne _ _ _ _ (by decide),
        lookup_dictSet_ne _ _ _ _ (by decide), hl]
    · refine ⟨pv, ?_, by rw [hpl]; simp⟩
      rw [lookup_dictSet_ne _ _ _ _ (by decide), lookup_dictSet_ne _ _ _ _ (by decide),
        lookup_dictSet_self]
    · obtain ⟨w, hw, hl⟩ := ffV (by decide) ("category", "Category") (by decide)
      refine ⟨w, ?_, hfvq _ _ hw⟩
      rw [lookup_dictSet_ne _ _ _ _ (by decide), lookup_dictSet_ne _ _ _ _ (by decide),
        lookup_dictSet_ne _ _ _ _ (by decide), xfP _ (by decide),
        lookup_dictSet_ne _ _ _ _ (by decide), lookup_dictSet_ne _ _ _ _ (by decide),
        efP _ (by decide), hl]
    · obtain ⟨w, hw, hl⟩ := ffV (by decide) ("fileNumber", "File Number") (by decide)
      refine ⟨w, ?_, hfvq _ _ hw⟩
      rw [lookup_dictSet_ne _ _ _ _ (by decide), lookup_dictSet_ne _ _ _ _ (by decide),
        lookup_dictSet_ne _ _ _ _ (by decide), xfP _ (by decide),
        lookup_dictSet_ne _ _ _ _ (by decide), lookup_dictSet_ne _ _ _ _ (by decide),
        efP _ (by decide), hl]
    · refine ⟨rv, ?_, by rw [hrl]; simp⟩
      rw [lookup_dictSet_ne _ _ _ _ (by decide), lookup_dictSet_self]
    · exact ⟨DVal.dlist jd, lookup_dictSet_self _ _ _, by simp⟩
  · intro raw v hraw hv
    rw [hraw0] at hraw
    cases hraw
    obtain ⟨vd, hvd, hlookd⟩ := ffV (by decide) ("decision", "Decision:") (by decide)
    rw [hv] at hvd
    cases hvd
    have hd2 : dGet values2 "decision" = v := by
      rw [dGet, efP _ (by decide), hlookd]
      rfl
    rw [hd2] at hdec
    refine ⟨dec, hdec, ?_⟩
    rw [lookup_dictSet_ne _ _ _ _ (by decide), lookup_dictSet_ne _ _ _ _ (by decide),
      lookup_dictSet_ne _ _ _ _ (by decide), xfP _ (by decide),
      lookup_dictSet_ne _ _ _ _ (by decide), lookup_dictSet_self]

/-- C3 (amended): in the new-layout extractor, `decision` takes element `[0]`
of its matched value unconditionally — the first paragraph when the value is
a paragraph list, but the FIRST CHARACTER when the value is flat text (a flat
value IS truncated), and an empty fallback value raises `IndexError`, making
the whole metadata extraction fail. -/
theorem claim_C3 (soup : Node) (raw : RawDict) (v : DVal)
    (hraw : newBuildRaw soup = Except.ok raw)
    (hv : find_value raw "Decision:" = Except.ok v) :
    ((∀ p ps, v = DVal.dlist (p :: ps) →
        ∀ data, new_scrape_metadata soup = Except.ok data →
          dGet data "decision" = DVal.dstr p) ∧
     (∀ s, v = DVal.dstr s → s ≠ "" →
        ∀ data, new_scrape_metadata soup = Except.ok data →
          dGet data "decision" = DVal.dstr (String.mk (s.data.take 1))) ∧
     (v = DVal.dstr "" → ∀ data, new_scrape_metadata soup ≠ Except.ok data)) := by
  refine ⟨?_, ?_, ?_⟩
  · intro p ps hvp data h
    obtain ⟨hnd, hfields, hdecspec⟩ := new_scrape_metadata_ok_spec soup data h
    obtain ⟨dec, hdec, hlook⟩ := hdecspec raw v hraw hv
    subst hvp
    have h1 : pySubscriptZero (DVal.dlist (p :: ps)) = Except.ok (DVal.dstr p) := rfl
    rw [h1] at hdec
    cases hdec
    rw [dGet, hlook]
    rfl
  · intro s hvs hs data h
    obtain ⟨hnd, hfields, hdecspec⟩ := new_scrape_metadata_ok_spec soup data h
    obtain ⟨dec, hdec, hlook⟩ := hdecspec raw v hraw hv
    subst hvs
    have hpz : pySubscriptZero (DVal.dstr s) =
        Except.ok (DVal.dstr (String.mk (s.data.take 1))) := by
      simp only [pySubscriptZero]
      rw [if_neg (by simpa using hs)]
    rw [hpz] at hdec
    cases hdec
    rw [dGet, hlook]
    rfl
  · intro hv0 data h
    subst hv0
    have hks : ∀ k ∈ raw.map Prod.fst, k ≠ none := by
      have h2 := hv
      rw [find_value] at h2
      obtain ⟨found, hfound, _⟩ := exceptBind_ok h2
      exact rawKeysMatch_ok_no_none "Decision:" _ found hfound
    obtain ⟨e, he⟩ := new_scrape_metadata_error_of_empty soup raw hraw hks hv
    rw [he] at h
    cases h

/-- Counterexample to C3 as stated: a flat (non-paragraph) decision value
"Dismissed" is truncated to its first character "D". -/
theorem claim_C3_counterexample :
    (new_scrape_metadata newFlat).map (fun data => dGet data "decision") =
      Except.ok (DVal.dstr "D") ∧
    find_value ((newBuildRaw newFlat).toOption.getD []) "Decision:" =
      Except.ok (DVal.dstr "Dismissed") ∧
    DVal.dstr "D" ≠ DVal.dstr "Dismissed" :=
  ⟨rfl, rfl, by decide⟩

/-- Witness for C3 at a page whose decision value is a paragraph list. -/
theorem claim_C3_witness :
    dGet ((new_scrape_metadata newListDec).toOption.getD []) "decision" =
      DVal.dstr "Costs ordered" := by
  exact (claim_C3 newListDec ((newBuildRaw newListDec).toOption.getD [])
    (DVal.dlist ["Costs ordered", "Further paragraph"]) rfl rfl).1
    "Costs ordered" ["Further paragraph"] rfl
    ((new_scrape_metadata newListDec).toOption.getD []) rfl

theorem step_fold_total (g : DVal → Except PyErr DVal) :
    ∀ (fields : List String) (init : List (String × DVal)), fields.Nodup →
      (∀ f ∈ fields, ∃ v, g (dGet init f) = Except.ok v) →
      ∃ vals, fields.foldlM (fun vals f => do
          let v ← g (dGet vals f)
          Except.ok (dictSet vals f v)) init = Except.ok vals := by
  intro fields
  induction fields with
  | nil => intro init _ _; exact ⟨init, rfl⟩
  | cons f0 rest ih =>
      intro init hnd hok
      simp only [List.nodup_cons] at hnd
      obtain ⟨v0, hv0⟩ := hok f0 (List.mem_cons_self _ _)
      obtain ⟨vals, hvals⟩ := ih (dictSet init f0 v0) hnd.2 (by
        intro f hf
        have : dGet (dictSet init f0 v0) f = dGet init f := by
          rw [dGet, dGet, lookup_dictSet_ne init f0 f v0 (fun hx => hnd.1 (hx ▸ hf))]
        rw [this]
        exact hok f (List.mem_cons_of_mem _ hf))
      refine ⟨vals, ?_⟩
      rw [List.foldlM_cons]
      have h1 : (do
          let v ← g (dGet init f0)
          Except.ok (dictSet init f0 v) : Except PyErr _) =
          Except.ok (dictSet init f0 v0) := by rw [hv0, pyBind_ok]
      rw [h1, pyBind_ok, hvals]

theorem old_scrape_metadata_ok_spec (soup : Node)
    (hrows : (Node.findAll "tr" soup).isEmpty = false) :
    ∃ data, old_scrape_metadata soup = Except.ok data ∧
      ((data.map Prod.fst).Nodup) ∧
      (∀ f ∈ FULL_FIELDS, ∃ w, data.lookup f = some w ∧ w ≠ DVal.dnone) ∧
      (∀ cs ss, find_value (oldBuildRaw soup) "COUNSEL" = Except.ok cs →
         find_value (oldBuildRaw soup) "SOLICITORS" = Except.ok ss →
         ∃ c s, cs = DVal.dstr c ∧ ss = DVal.dstr s ∧
           data.lookup "representation" =
             some (DVal.dlist (splitOnChars ['\n'] c ++ splitOnChars ['\n'] s))) := by
  have oldq := oldBuildRaw_quality soup
  have hks : ∀ k ∈ (oldBuildRaw soup).map Prod.fst, k ≠ none := by
    intro k hk
    obtain ⟨kv, hkv, hfst⟩ := List.mem_map.mp hk
    obtain ⟨⟨s, hs⟩, _⟩ := oldq kv hkv
    rw [← hfst, hs]
    simp
  have hfds : ∀ sub v, find_value (oldBuildRaw soup) sub = Except.ok v →
      ∃ t, v = DVal.dstr t := by
    intro sub v hv
    rcases find_value_cases _ sub v hv with h1 | ⟨m, hm⟩
    · exact ⟨"", h1⟩
    · exact (oldq (some m, v) hm).2
  have hstep : ∀ (vals : List (String × DVal)) (fs : String × String),
      ∃ c, (do
        let v ← find_value (oldBuildRaw soup) fs.2
        Except.ok (dictSet vals fs.1 v) : Except PyErr _) = Except.ok c := by
    intro vals fs
    obtain ⟨v, hv⟩ := find_value_total _ fs.2 hks
    exact ⟨dictSet vals fs.1 v, by rw [hv, pyBind_ok]⟩
  obtain ⟨values, hvalues⟩ := foldlM_total _ hstep OLD_SUBSTRINGS []
  obtain ⟨ffP, ffV, ffN⟩ := find_fold_spec _ OLD_SUBSTRINGS [] values hvalues
  obtain ⟨vcw, hvcw, hlcw⟩ := ffV (by decide) ("catchwords", "CATCHWORDS") (by decide)
  obtain ⟨tcw, htcw⟩ := hfds _ _ hvcw
  subst htcw
  have hcw : old_catchwords (dGet values "catchwords") =
      Except.ok (DVal.dlist ((splitOnChars ['-'] tcw).map pyStrip)) := by
    rw [dGet, hlcw]
    rfl
  obtain ⟨vlg, hvlg, hllg⟩ := ffV (by decide)
    ("legislationCited", "LEGISLATION CITED") (by decide)
  obtain ⟨tlg, htlg⟩ := hfds _ _ hvlg
  subst htlg
  obtain ⟨vca, hvca, hlca⟩ := ffV (by decide) ("casesCited", "CASES CITED") (by decide)
  obtain ⟨tca, htca⟩ := hfds _ _ hvca
  subst htca
  obtain ⟨vpa, hvpa, hlpa⟩ := ffV (by decide) ("parties", "PARTIES") (by decide)
  obtain ⟨tpa, htpa⟩ := hfds _ _ hvpa
  subst htpa
  obtain ⟨vco, hvco, hlco⟩ := ffV (by decide) ("counsel", "COUNSEL") (by decide)
  obtain ⟨tco, htco⟩ := hfds _ _ hvco
  subst htco
  obtain ⟨vso, hvso, hlso⟩ := ffV (by decide) ("solicitors", "SOLICITORS") (by decide)
  obtain ⟨tso, htso⟩ := hfds _ _ hvso
  subst htso
  have hgetcw : ∀ f, f ≠ "catchwords" →
      dGet (dictSet values "catchwords" (DVal.dlist ((splitOnChars ['-'] tcw).map pyStrip))) f
        = dGet values f := by
    intro f hf
    rw [dGet, dGet, lookup_dictSet_ne values "catchwords" f _ hf]
  have hsplit_total : ∀ f ∈ ["legislationCited", "casesCited", "parties", "counsel",
      "solicitors"], ∃ v, pySplitNewline (dGet
        (dictSet values "catchwords" (DVal.dlist ((splitOnChars ['-'] tcw).map pyStrip)))
        f) = Except.ok v := by
    intro f hf
    fin_cases hf
    · rw [hgetcw _ (by decide), dGet, hllg]; exact ⟨_, rfl⟩
    · rw [hgetcw _ (by decide), dGet, hlca]; exact ⟨_, rfl⟩
    · rw [hgetcw _ (by decide), dGet, hlpa]; exact ⟨_, rfl⟩
    · rw [hgetcw _ (by decide), dGet, hlco]; exact ⟨_, rfl⟩
    · rw [hgetcw _ (by decide), dGet, hlso]; exact ⟨_, rfl⟩
  obtain ⟨values3, hvalues3⟩ := step_fold_total pySplitNewline
    ["legislationCited", "casesCited", "parties", "counsel", "solicitors"]
    (dictSet values "catchwords" (DVal.dlist ((splitOnChars ['-'] tcw).map pyStrip)))
    (by decide) hsplit_total
  obtain ⟨sfP, sfV, sfN⟩ := step_fold_spec pySplitNewline _ _ values3 hvalues3
  obtain ⟨vmn, hvmn, hlmn⟩ := ffV (by decide) ("mnc", "CITATION") (by decide)
  obtain ⟨tmn, htmn⟩ := hfds _ _ hvmn
  subst htmn
  obtain ⟨vhd, hvhd, hlhd⟩ := ffV (by decide) ("hearingDates", "HEARING DATE") (by decide)
  obtain ⟨thd, hthd⟩ := hfds _ _ hvhd
  subst hthd
  obtain ⟨vdo, hvdo, hldo⟩ := ffV (by decide) ("dateOfOrders", "DATE OF ORDERS") (by decide)
  obtain ⟨tdo, htdo⟩ := hfds _ _ hvdo
  subst htdo
  obtain ⟨vjr, hvjr, hljr⟩ := ffV (by decide) ("jurisdiction", "JURISDICTION") (by decide)
  obtain ⟨tjr, htjr⟩ := hfds _ _ hvjr
  subst htjr
  obtain ⟨vde, hvde, hlde⟩ := ffV (by decide) ("decision", "DECISION") (by decide)
  obtain ⟨tde, htde⟩ := hfds _ _ hvde
  subst htde
  obtain ⟨vct, hvct, hlct⟩ := ffV (by decide) ("category", "CATEGORY") (by decide)
  obtain ⟨tct, htct⟩ := hfds _ _ hvct
  subst htct
  obtain ⟨vfn, hvfn, hlfn⟩ := ffV (by decide) ("fileNumber", "FILE NUMBER") (by decide)
  obtain ⟨tfn, htfn⟩ := hfds _ _ hvfn
  subst htfn
  obtain ⟨wlg, hwlg, hllg3⟩ := sfV (by decide) "legislationCited" (by decide)
  rw [hgetcw _ (by decide), dGet, hllg, Option.getD_some] at hwlg
  obtain ⟨wca, hwca, hlca3⟩ := sfV (by decide) "casesCited" (by decide)
  rw [hgetcw _ (by decide), dGet, hlca, Option.getD_some] at hwca
  obtain ⟨wpa, hwpa, hlpa3⟩ := sfV (by decide) "parties" (by decide)
  rw [hgetcw _ (by decide), dGet, hlpa, Option.getD_some] at hwpa
  obtain ⟨wco, hwco, hlco3⟩ := sfV (by decide) "counsel" (by decide)
  rw [hgetcw _ (by decide), dGet, hlco, Option.getD_some] at hwco
  obtain ⟨wso, hwso, hlso3⟩ := sfV (by decide) "solicitors" (by decide)
  rw [hgetcw _ (by decide), dGet, hlso, Option.getD_some] at hwso
  have hwlg2 : wlg = DVal.dlist (splitOnChars ['\n'] tlg) :=
    (Except.ok.inj (show Except.ok (DVal.dlist (splitOnChars ['\n'] tlg))
      = Except.ok wlg from hwlg)).symm
  subst hwlg2
  have hwca2 : wca = DVal.dlist (splitOnChars ['\n'] tca) :=
    (Except.ok.inj (show Except.ok (DVal.dlist (splitOnChars ['\n'] tca))
      = Except.ok wca from hwca)).symm
  subst hwca2
  have hwpa2 : wpa = DVal.dlist (splitOnChars ['\n'] tpa) :=
    (Except.ok.inj (show Except.ok (DVal.dlist (splitOnChars ['\n'] tpa))
      = Except.ok wpa from hwpa)).symm
  subst hwpa2
  have hwco2 : wco = DVal.dlist (splitOnChars ['\n'] tco) :=
    (Except.ok.inj (show Except.ok (DVal.dlist (splitOnChars ['\n'] tco))
      = Except.ok wco from hwco)).symm
  subst hwco2
  have hwso2 : wso = DVal.dlist (splitOnChars ['\n'] tso) :=
    (Except.ok.inj (show Except.ok (DVal.dlist (splitOnChars ['\n'] tso))
      = Except.ok wso from hwso)).symm
  subst hwso2
  have hc3v : dGet values3 "counsel" = DVal.dlist (splitOnChars ['\n'] tco) := by
    rw [dGet, hlco3]
    rfl
  have hs4 : dGet (dictSet (dictPop values3 "counsel") "representation"
      (DVal.dlist (splitOnChars ['\n'] tco))) "solicitors"
      = DVal.dlist (splitOnChars ['\n'] tso) := by
    rw [dGet, lookup_dictSet_ne _ _ _ _ (show "solicitors" ≠ "representation" by decide),
      lookup_dictPop_ne _ _ _ (show "solicitors" ≠ "counsel" by decide), hlso3]
    rfl
  have hr4 : dGet (dictSet (dictPop values3 "counsel") "representation"
      (DVal.dlist (splitOnChars ['\n'] tco))) "representation"
      = DVal.dlist (splitOnChars ['\n'] tco) := by
    rw [dGet, lookup_dictSet_self]
    rfl
  have hDATA_ne : ∀ f, f ≠ "judgment" → f ≠ "representation" → f ≠ "solicitors" →
      f ≠ "counsel" →
      List.lookup f (dictSet (dictSet (dictPop (dictSet (dictPop values3 "counsel")
          "representation" (DVal.dlist (splitOnChars ['\n'] tco))) "solicitors")
          "representation"
          (DVal.dlist (splitOnChars ['\n'] tco ++ splitOnChars ['\n'] tso)))
          "judgment" (DVal.dlist (old_scrape_judgment soup)))
        = List.lookup f values3 := by
    intro f h1 h2 h3 h4
    rw [lookup_dictSet_ne _ _ _ _ h1, lookup_dictSet_ne _ _ _ _ h2,
      lookup_dictPop_ne _ _ _ h3, lookup_dictSet_ne _ _ _ _ h2,
      lookup_dictPop_ne _ _ _ h4]
  have hinit3_ne : ∀ f, f ≠ "catchwords" →
      List.lookup f (dictSet values "catchwords"
        (DVal.dlist ((splitOnChars ['-'] tcw).map pyStrip)))
      = List.lookup f values :=
    fun f h => lookup_dictSet_ne _ _ _ _ h
  refine ⟨dictSet (dictSet (dictPop (dictSet (dictPop values3 "counsel") "representation"
      (DVal.dlist (splitOnChars ['\n'] tco))) "solicitors") "representation"
      (DVal.dlist (splitOnChars ['\n'] tco ++ splitOnChars ['\n'] tso)))
      "judgment" (DVal.dlist (old_scrape_judgment soup)), ?_, ?_, ?_, ?_⟩
  · rw [old_scrape_metadata]
    simp only [hrows, Bool.false_eq_true, if_false]
    rw [hvalues]
    simp only [pyBind_ok]
    rw [hcw]
    simp only [pyBind_ok]
    rw [hvalues3]
    simp only [pyBind_ok]
    rw [hc3v]
    rw [if_pos (show DVal.dlist (splitOnChars ['\n'] tco) ≠ DVal.dnone from
      fun hx => DVal.noConfusion hx)]
    rw [hs4]
    rw [if_pos (show DVal.dlist (splitOnChars ['\n'] tso) ≠ DVal.dnone from
      fun hx => DVal.noConfusion hx)]
    rw [hr4]
    rw [show pyListAdd (DVal.dlist (splitOnChars ['\n'] tco))
        (DVal.dlist (splitOnChars ['\n'] tso))
        = Except.ok (DVal.dlist (splitOnChars ['\n'] tco ++ splitOnChars ['\n'] tso))
        from rfl]
    simp only [pyBind_ok]
  · have hnv := ffN (by simp)
    have h3 := sfN (nodup_keys_dictSet _ _ _ hnv)
    exact nodup_keys_dictSet _ _ _ (nodup_keys_dictSet _ _ _ (nodup_keys_dictPop _ _
      (nodup_keys_dictSet _ _ _ (nodup_keys_dictPop _ _ h3))))
  · intro f hf
    fin_cases hf
    · refine ⟨DVal.dstr tmn, ?_, fun hx => DVal.noConfusion hx⟩
      rw [hDATA_ne "mnc" (by decide) (by decide) (by decide) (by decide),
        sfP "mnc" (by decide), hinit3_ne "mnc" (by decide)]
      exact hlmn
    · refine ⟨DVal.dstr thd, ?_, fun hx => DVal.noConfusion hx⟩
      rw [hDATA_ne "hearingDates" (by decide) (by decide) (by decide) (by decide),
        sfP "hearingDates" (by decide), hinit3_ne "hearingDates" (by decide)]
      exact hlhd
    · refine ⟨DVal.dstr tdo, ?_, fun hx => DVal.noConfusion hx⟩
      rw [hDATA_ne "dateOfOrders" (by decide) (by decide) (by decide) (by decide),
        sfP "dateOfOrders" (by decide), hinit3_ne "dateOfOrders" (by decide)]
      exact hldo
    · refine ⟨DVal.dstr tjr, ?_, fun hx => DVal.noConfusion hx⟩
      rw [hDATA_ne "jurisdiction" (by decide) (by decide) (by decide) (by decide),
        sfP "jurisdiction" (by decide), hinit3_ne "jurisdiction" (by decide)]
      exact hljr
    · refine ⟨DVal.dstr tde, ?_, fun hx => DVal.noConfusion hx⟩
      rw [hDATA_ne "decision" (by decide) (by decide) (by decide) (by decide),
        sfP "decision" (by decide), hinit3_ne "decision" (by decide)]
      exact hlde
    · refine ⟨DVal.dlist ((splitOnChars ['-'] tcw).map pyStrip), ?_,
        fun hx => DVal.noConfusion hx⟩
      rw [hDATA_ne "catchwords" (by decide) (by decide) (by decide) (by decide),
        sfP "catchwords" (by decide), lookup_dictSet_self]
    · refine ⟨DVal.dlist (splitOnChars ['\n'] tlg), ?_, fun hx => DVal.noConfusion hx⟩
      rw [hDATA_ne "legislationCited" (by decide) (by decide) (by decide) (by decide)]
      exact hllg3
    · refine ⟨DVal.dlist (splitOnChars ['\n'] tca), ?_, fun hx => DVal.noConfusion hx⟩
      rw [hDATA_ne "casesCited" (by decide) (by decide) (by decide) (by decide)]
      exact hlca3
    · refine ⟨DVal.dlist (splitOnChars ['\n'] tpa), ?_, fun hx => DVal.noConfusion hx⟩
      rw [hDATA_ne "parties" (by decide) (by decide) (by decide) (by decide)]
      exact hlpa3
    · refine ⟨DVal.dstr tct, ?_, fun hx => DVal.noConfusion hx⟩
      rw [hDATA_ne "category" (by decide) (by decide) (by decide) (by decide),
        sfP "category" (by decide), hinit3_ne "category" (by decide)]
      exact hlct
    · refine ⟨DVal.dstr tfn, ?_, fun hx => DVal.noConfusion hx⟩
      rw [hDATA_ne "fileNumber" (by decide) (by decide) (by decide) (by decide),
        sfP "fileNumber" (by decide), hinit3_ne "fileNumber" (by decide)]
      exact hlfn
    · refine ⟨DVal.dlist (splitOnChars ['\n'] tco ++ splitOnChars ['\n'] tso), ?_,
        fun hx => DVal.noConfusion hx⟩
      rw [lookup_dictSet_ne _ _ _ _ (show "representation" ≠ "judgment" by decide),
        lookup_dictSet_self]
    · refine ⟨DVal.dlist (old_scrape_judgment soup), ?_, fun hx => DVal.noConfusion hx⟩
      rw [lookup_dictSet_self]
  · intro cs ss hcs hss
    have hvco2 : find_value (oldBuildRaw soup) "COUNSEL"
        = Except.ok (DVal.dstr tco) := hvco
    have hvso2 : find_value (oldBuildRaw soup) "SOLICITORS"
        = Except.ok (DVal.dstr tso) := hvso
    rw [hvco2] at hcs
    rw [hvso2] at hss
    injection hcs with hcs2
    injection hss with hss2
    subst hcs2
    subst hss2
    refine ⟨tco, tso, rfl, rfl, ?_⟩
    rw [lookup_dictSet_ne _ _ _ _ (show "representation" ≠ "judgment" by decide),
      lookup_dictSet_self]

/-- C4 (amended): in the old-layout extractor, whenever the metadata table
has rows, `representation` equals counsel's newline-split list concatenated
with solicitors' newline-split list, in that order. The absence clause of the
original claim does not hold: `_find_value` yields the empty string (never
`None`) for an absent label, so an absent counsel contributes `[""]` (not an
empty start) and absent solicitors still append `[""]`; the `None` guards in
the merge are dead code. -/
theorem claim_C4 (soup : Node) (data : List (String × DVal))
    (hrows : (Node.findAll "tr" soup).isEmpty = false)
    (h : old_scrape_metadata soup = Except.ok data)
    (cs ss : DVal)
    (hcs : find_value (oldBuildRaw soup) "COUNSEL" = Except.ok cs)
    (hss : find_value (oldBuildRaw soup) "SOLICITORS" = Except.ok ss) :
    ∃ c s, cs = DVal.dstr c ∧ ss = DVal.dstr s ∧
      data.lookup "representation" =
        some (DVal.dlist (splitOnChars ['\n'] c ++ splitOnChars ['\n'] s)) := by
  obtain ⟨data2, hdata2, _, _, hrep⟩ := old_scrape_metadata_ok_spec soup hrows
  rw [h] at hdata2
  injection hdata2 with h2
  subst h2
  exact hrep cs ss hcs hss

/-- Counterexample for the original C4: on an old-layout page with neither a
`COUNSEL` nor a `SOLICITORS` row, `_find_value` returns the empty string for
both, and `representation` comes out as `["", ""]`, not the empty list the
spec predicts for absent labels. -/
theorem claim_C4_counterexample :
    find_value (oldBuildRaw oldNoCounsel) "COUNSEL" = Except.ok (DVal.dstr "") ∧
    find_value (oldBuildRaw oldNoCounsel) "SOLICITORS" = Except.ok (DVal.dstr "") ∧
    ((old_scrape_metadata oldNoCounsel).toOption.getD []).lookup "representation"
      = some (DVal.dlist ["", ""]) ∧
    DVal.dlist ["", ""] ≠ DVal.dlist [] :=
  ⟨rfl, rfl, rfl, by decide⟩

/-- Witness for C4: an old-layout page with a two-line counsel cell and a
solicitors cell; `representation` is the concatenation of the two splits. -/
theorem claim_C4_witness :
    (Node.findAll "tr" oldFull).isEmpty = false ∧
    ∃ c s,
      (find_value (oldBuildRaw oldFull) "COUNSEL").toOption.getD DVal.dnone
        = DVal.dstr c ∧
      (find_value (oldBuildRaw oldFull) "SOLICITORS").toOption.getD DVal.dnone
        = DVal.dstr s ∧
      ((old_scrape_metadata oldFull).toOption.getD []).lookup "representation"
        = some (DVal.dlist (splitOnChars ['\n'] c ++ splitOnChars ['\n'] s)) :=
  ⟨rfl, claim_C4 oldFull _ rfl rfl _ _ rfl rfl⟩

theorem get_merge_of_none (dv data : List (String × DVal)) (f : String)
    (hlk : data.reverse.lookup f = none) :
    List.lookup f (data.foldl (fun vals kv => dictSet vals kv.1 kv.2) dv)
      = List.lookup f dv := by
  rw [lookup_foldl_dictSet, hlk]

theorem get_merge_of_some (dv data : List (String × DVal)) (f : String) (w : DVal)
    (hnd : (data.map Prod.fst).Nodup) (hlk : data.lookup f = some w) :
    List.lookup f (data.foldl (fun vals kv => dictSet vals kv.1 kv.2) dv)
      = some w := by
  rw [lookup_foldl_dictSet, lookup_reverse_of_nodup data hnd, hlk]

theorem full_fields_ne (f : String) (hf : f ∈ FULL_FIELDS) :
    f ≠ "title" ∧ f ≠ "uri" := by
  fin_cases hf <;> exact ⟨by decide, by decide⟩

/-- C2 (amended): when `Decision.scrape` reports success, every full field of
the record is set to a non-`None` value — provided the chosen extractor
actually found content: the new layout always, the old layout only when the
page has at least one metadata table row. On an old-layout page with no table
rows `_scrape_metadata` returns the empty dict, `scrape` still reports
success, and every full field keeps its previous value, so an unset field
remains the unset marker `None` — contrary to the original claim. -/
theorem claim_C2 (d : DecisionRec) (soup : Node) (d2 : DecisionRec)
    (h : decision_scrape d soup = (true, d2)) :
    ((get_scraper soup = Layout.oldSc ∧ (Node.findAll "tr" soup).isEmpty = true) →
       ∀ f ∈ FULL_FIELDS, d2.get f = d.get f) ∧
    ((get_scraper soup = Layout.oldSc ∧ (Node.findAll "tr" soup).isEmpty = false) →
       ∀ f ∈ FULL_FIELDS, d2.get f ≠ DVal.dnone) ∧
    (get_scraper soup = Layout.newSc →
       ∀ f ∈ FULL_FIELDS, d2.get f ≠ DVal.dnone) := by
  rw [decision_scrape] at h
  split at h
  case _ data heq =>
    injection h with h1 h2
    subst h2
    refine ⟨?_, ?_, ?_⟩
    · rintro ⟨hlay, hrows⟩ f hf
      obtain ⟨hft, hfu⟩ := full_fields_ne f hf
      rw [hlay, scraper_scrape] at heq
      obtain ⟨md, hmd, heq2⟩ := exceptBind_ok heq
      have hmd2 : old_scrape_metadata soup = Except.ok md := hmd
      rw [old_scrape_metadata] at hmd2
      simp only [hrows, eq_self_iff_true, if_true] at hmd2
      injection hmd2 with hmd3
      subst hmd3
      dsimp only at heq2
      injection heq2 with heq3
      have hrev : data.reverse.lookup f = none := by
        rw [← heq3]
        apply lookup_eq_none_of_not_mem
        intro hmem
        have h1 : (dictSet (dictSet ([] : List (String × DVal)) "title"
            (match scrape_title soup with
             | some t => DVal.dstr t
             | none => DVal.dnone)) "uri"
            (scrape_uri soup (d.get "uri"))).reverse.map Prod.fst
            = ["uri", "title"] := rfl
        rw [h1] at hmem
        simp only [List.mem_cons, List.not_mem_nil, or_false] at hmem
        rcases hmem with h | h
        · exact hfu h
        · exact hft h
      show (List.lookup f (data.foldl (fun vals kv => dictSet vals kv.1 kv.2)
          d.values)).getD DVal.dnone = (List.lookup f d.values).getD DVal.dnone
      rw [get_merge_of_none d.values data f hrev]
    · rintro ⟨hlay, hrows⟩ f hf
      obtain ⟨hft, hfu⟩ := full_fields_ne f hf
      rw [hlay, scraper_scrape] at heq
      obtain ⟨md, hmd, heq2⟩ := exceptBind_ok heq
      have hmd2 : old_scrape_metadata soup = Except.ok md := hmd
      obtain ⟨md2, hmd3, hnd_md, hfields, _⟩ := old_scrape_metadata_ok_spec soup hrows
      rw [hmd2] at hmd3
      injection hmd3 with hmd4
      subst hmd4
      obtain ⟨w, hw, hwne⟩ := hfields f hf
      dsimp only at heq2
      injection heq2 with heq3
      have hlkdata : data.lookup f = some w := by
        rw [← heq3, lookup_dictSet_ne _ _ _ _ hfu, lookup_dictSet_ne _ _ _ _ hft]
        exact hw
      have hnd_data : (data.map Prod.fst).Nodup := by
        rw [← heq3]
        exact nodup_keys_dictSet _ _ _ (nodup_keys_dictSet _ _ _ hnd_md)
      have hval : (List.lookup f (data.foldl (fun vals kv => dictSet vals kv.1 kv.2)
          d.values)).getD DVal.dnone = w := by
        rw [get_merge_of_some d.values data f w hnd_data hlkdata]
        rfl
      show (List.lookup f (data.foldl (fun vals kv => dictSet vals kv.1 kv.2)
          d.values)).getD DVal.dnone ≠ DVal.dnone
      rw [hval]
      exact hwne
    · intro hlay f hf
      obtain ⟨hft, hfu⟩ := full_fields_ne f hf
      rw [hlay, scraper_scrape] at heq
      obtain ⟨md, hmd, heq2⟩ := exceptBind_ok heq
      have hmd2 : new_scrape_metadata soup = Except.ok md := hmd
      obtain ⟨hnd_md, hfields, _⟩ := new_scrape_metadata_ok_spec soup md hmd2
      obtain ⟨w, hw, hwne⟩ := hfields f hf
      dsimp only at heq2
      injection heq2 with heq3
      have hlkdata : data.lookup f = some w := by
        rw [← heq3, lookup_dictSet_ne _ _ _ _ hfu, lookup_dictSet_ne _ _ _ _ hft]
        exact hw
      have hnd_data : (data.map Prod.fst).Nodup := by
        rw [← heq3]
        exact nodup_keys_dictSet _ _ _ (nodup_keys_dictSet _ _ _ hnd_md)
      have hval : (List.lookup f (data.foldl (fun vals kv => dictSet vals kv.1 kv.2)
          d.values)).getD DVal.dnone = w := by
        rw [get_merge_of_some d.values data f w hnd_data hlkdata]
        rfl
      show (List.lookup f (data.foldl (fun vals kv => dictSet vals kv.1 kv.2)
          d.values)).getD DVal.dnone ≠ DVal.dnone
      rw [hval]
      exact hwne
  case _ e heq =>
    injection h with h1 h2
    exact absurd h1 (by decide)

/-- Counterexample for the original C2: an old-layout page with no metadata
table rows is accepted — `scrape` reports success — yet `mnc` (a declared
field) is left as the unset marker `None`. -/
theorem claim_C2_counterexample :
    (decision_scrape dWithUri oldEmpty).1 = true ∧
    "mnc" ∈ FULL_FIELDS ∧
    (decision_scrape dWithUri oldEmpty).2.get "mnc" = DVal.dnone :=
  ⟨rfl, by decide, rfl⟩

/-- Witness for C2: an old-layout page with metadata rows scrapes
successfully and leaves `mnc` non-`None`. -/
theorem claim_C2_witness :
    (get_scraper oldFull = Layout.oldSc ∧ (Node.findAll "tr" oldFull).isEmpty = false) ∧
    (decision_scrape dWithUri oldFull).2.get "mnc" ≠ DVal.dnone := by
  refine ⟨⟨rfl, rfl⟩, ?_⟩
  exact (claim_C2 dWithUri oldFull (decision_scrape dWithUri oldFull).2
    rfl).2.1 ⟨rfl, rfl⟩ "mnc" (by decide)

end NswCaseLaw